import Mathlib

/-!
Verification development for the `where` library: a SQL WHERE-clause filter
compiler (lexer → parser → AST → parse-time validator → SQL builder with
pluggable database drivers).  Definitions are shallow embeddings of the Go
source: `grammar.go` (AST), the lexer rules in `driver.go`, the parser and
parse-time validator (`parser.go`), the SQL builder (`sql_builder.go`), the
driver contract and registry (`driver.go`), the validator (`validator.go`),
and the postgres/mysql driver packages.  Go strings are modelled as Lean
`String`, `float64` literal payloads as `ℚ` (every numeric literal in the
properties below is exactly representable), Go `nil` pointers as `Option`,
Go panics and errors as explicit sum types.
-/

namespace WhereLib

/-! ## Characters and string helpers (Go `strings` package semantics) -/

/-- The backtick character. -/
def btChar : Char := Char.ofNat 96

/-- The double-quote character. -/
def dqChar : Char := Char.ofNat 34

/-- The single-quote character. -/
def sqChar : Char := Char.ofNat 39

/-- The backslash character. -/
def bsChar : Char := Char.ofNat 92

/-- ASCII letter or underscore (start of a Go identifier / lexer Ident). -/
def isIdentStart (c : Char) : Bool :=
  (c ≥ 'a' && c ≤ 'z') || (c ≥ 'A' && c ≤ 'Z') || c = '_'

/-- ASCII letter, digit or underscore (continuation of an identifier, also
the word-character class of the lexer's `\b` boundaries). -/
def isWordChar (c : Char) : Bool :=
  isIdentStart c || (c ≥ '0' && c ≤ '9')

/-- ASCII digit. -/
def isDigitChar (c : Char) : Bool :=
  c ≥ '0' && c ≤ '9'

/-- Whitespace class of the lexer's `\s+` rule. -/
def isSpaceChar (c : Char) : Bool :=
  c = ' ' || c = Char.ofNat 9 || c = Char.ofNat 10 || c = Char.ofNat 13 || c = Char.ofNat 12

/-- `strings.ToUpper`, ASCII range (all inputs in this development are ASCII). -/
def goUpper (s : String) : String :=
  String.mk (s.data.map Char.toUpper)

/-- `strings.ToLower`, ASCII range. -/
def goLower (s : String) : String :=
  String.mk (s.data.map Char.toLower)

/-- List-level starts-with test. -/
def listStarts : List Char → List Char → Bool
  | [], _ => true
  | _ :: _, [] => false
  | p :: ps, c :: cs => p = c && listStarts ps cs

/-- `strings.HasPrefix`. -/
def goStarts (s pre : String) : Bool :=
  listStarts pre.data s.data

/-- `strings.HasSuffix`. -/
def goEnds (s suf : String) : Bool :=
  listStarts suf.data.reverse s.data.reverse

/-- List-level substring search. -/
def listContainsSub (hay needle : List Char) : Bool :=
  match hay with
  | [] => listStarts needle []
  | _ :: rest => listStarts needle hay || listContainsSub rest needle

/-- `strings.Contains`. -/
def goContains (s sub : String) : Bool :=
  listContainsSub s.data sub.data

/-- Split a character list at every occurrence of `sep`. -/
def listSplitOn (sep : Char) : List Char → List (List Char)
  | [] => [[]]
  | c :: cs =>
    let rest := listSplitOn sep cs
    if c = sep then [] :: rest
    else match rest with
      | [] => [[c]]
      | g :: gs => (c :: g) :: gs

/-- `strings.Split(s, sep)` for a one-character separator. -/
def goSplitChar (s : String) (sep : Char) : List String :=
  (listSplitOn sep s.data).map String.mk

/-- `strings.Join`. -/
def goJoin (parts : List String) (sep : String) : String :=
  match parts with
  | [] => ""
  | p :: ps => ps.foldl (fun acc q => acc ++ sep ++ q) p

/-- `strings.ReplaceAll(s, old, new)` for a one-character `old`. -/
def goReplaceAllChar (s : String) (old : Char) (new : String) : String :=
  String.mk (s.data.foldr (fun c acc => if c = old then new.data ++ acc else c :: acc) [])

/-- Replace the first occurrence of `old` in `s` by `new`
(`strings.Replace(s, old, new, 1)`). -/
def listReplaceOnce (old new : List Char) : List Char → List Char
  | [] => []
  | c :: cs =>
    if listStarts old (c :: cs) then new ++ (c :: cs).drop old.length
    else c :: listReplaceOnce old new cs

/-- `strings.Replace(s, old, new, 1)`. -/
def goReplaceOnce (s old new : String) : String :=
  String.mk (listReplaceOnce old.data new.data s.data)

/-- `strings.TrimSpace` (ASCII whitespace). -/
def goTrimSpace (s : String) : String :=
  String.mk (((s.data.dropWhile (fun c => isSpaceChar c)).reverse.dropWhile
    (fun c => isSpaceChar c)).reverse)

/-- Substitute the `%s` verbs of a Go format template by the given strings in
order (the fragment of `fmt.Sprintf` used by the SQL builder's function-call
rendering; extra or missing arguments are immaterial to every property below). -/
def formatVerbs : List Char → List String → List Char
  | [], _ => []
  | [c], _ => [c]
  | c :: c2 :: cs, args =>
    if c = '%' && c2 = 's' then
      match args with
      | a :: moreArgs => a.data ++ formatVerbs cs moreArgs
      | [] => formatVerbs cs []
    else c :: formatVerbs (c2 :: cs) args

/-- `fmt.Sprintf(template, args...)` for `%s`-only templates. -/
def goSprintf (template : String) (args : List String) : String :=
  String.mk (formatVerbs template.data args)

/-! ## Parameters, errors, driver contract, validator, registry -/

/-- A value appended to the ordered SQL parameter list (`[]any` in the source:
either a quote-stripped string or a `float64`, modelled as `ℚ`). -/
inductive Param where
  | str (s : String)
  | num (q : ℚ)
deriving DecidableEq

/-- Errors produced by the SQL builder, one constructor per `errors.New` /
`fmt.Errorf` site in `sql_builder.go`, carrying the formatted data. -/
inductive BuildError where
  | emptyExpression
  | emptyTerm
  | emptyFactorContent
  | emptyPredicate
  | predicateMissingOperation
  | unrecognizedOperation
  | operatorNotSupported (op : String) (driverName : String)
  | emptyIn
  | nilValue
  | unrecognizedValue
  | functionNotAllowed (name : String)
  | functionNotSupported (name : String) (argc : Nat) (driverName : String)
  | emptyField
  | fieldNotAllowed (name : String)
  | unrecognizedLiteral
deriving DecidableEq

/-- Errors returned by `Filter.ToSQL`: driver lookup failure (wrapping the
registry's not-registered error), the empty-filter guard, or a build error. -/
inductive SQLError where
  | driverNotFound (name : String)
  | emptyFilter
  | build (e : BuildError)
deriving DecidableEq

/-- The `Driver` interface of `driver.go`: each database dialect implements
quoting, placeholders, reserved keywords, operator translation, function
translation (used by the SQL builder's function-call rendering) and feature
flags. -/
structure Driver where
  Name : String
  QuoteIdentifier : String → String
  Placeholder : Nat → String
  Keywords : List String
  TranslateOperator : String → String × Bool
  TranslateFunction : String → Nat → String × Bool
  SupportsFeature : String → Bool

/-- The keyword loop of `IsReservedKeyword`, over an explicit keyword list. -/
def IsReservedKeywordWith (keys : List String) (word : String) : Bool :=
  keys.any (fun k => goUpper word = k)

/-- `IsReservedKeyword` of `driver.go`: uppercase the word and compare against
each entry of the driver's keyword list. -/
def IsReservedKeyword (word : String) (d : Driver) : Bool :=
  IsReservedKeywordWith d.Keywords word

/-- The body of `NeedsQuoting` over an explicit keyword list.  (The source
inspects the first byte for the digit test; on the first character this is
equivalent, since a non-ASCII first character is caught by the
character-class loop in both readings.) -/
def NeedsQuotingWith (keys : List String) (name : String) : Bool :=
  if IsReservedKeywordWith keys name then true
  else if name = "" then false
  else if (match name.data with | c :: _ => isDigitChar c | [] => false) then true
  else if name.data.any (fun c => !((c ≥ 'a' && c ≤ 'z') || (c ≥ 'A' && c ≤ 'Z') ||
      (c ≥ '0' && c ≤ '9') || c = '_')) then true
  else false

/-- `NeedsQuoting` of `driver.go`: reserved keyword, leading digit, or any
character outside `[A-Za-z0-9_]` forces quoting. -/
def NeedsQuoting (name : String) (d : Driver) : Bool :=
  NeedsQuotingWith d.Keywords name

/-- The `Validator` of `validator.go`; the Go `map[string]bool` allow-lists
are modelled as membership functions. -/
structure Validator where
  allowedFields : String → Bool
  allowedFunctions : String → Bool
  allowAll : Bool

/-- `NewValidator`: empty allow-lists, `allowAll` off — denies everything. -/
def NewValidator : Validator :=
  ⟨fun _ => false, fun _ => false, false⟩

/-- `Validator.AllowAll`. -/
def Validator.AllowAllV (v : Validator) : Validator :=
  { v with allowAll := true }

/-- `Validator.AllowFields`: stores each name lowercased. -/
def Validator.AllowFieldsV (v : Validator) (fields : List String) : Validator :=
  { v with allowedFields := fun s => v.allowedFields s || fields.any (fun f => goLower f = s) }

/-- `Validator.AllowFunctions`: stores each name uppercased. -/
def Validator.AllowFunctionsV (v : Validator) (fns : List String) : Validator :=
  { v with allowedFunctions := fun s => v.allowedFunctions s || fns.any (fun f => goUpper f = s) }

/-- `Validator.IsFieldAllowed`: allow-all, or the lowercased field is listed. -/
def IsFieldAllowed (v : Validator) (field : String) : Bool :=
  if v.allowAll then true else v.allowedFields (goLower field)

/-- `Validator.IsFunctionAllowed`: allow-all, or the uppercased name is listed. -/
def IsFunctionAllowed (v : Validator) (fn : String) : Bool :=
  if v.allowAll then true else v.allowedFunctions (goUpper fn)

/-- The process-wide driver registry (`drivers map[string]Driver`), modelled
as a lookup function. -/
def Registry : Type := String → Option Driver

/-- The freshly initialized empty registry. -/
def emptyRegistry : Registry := fun _ => none

/-- `RegisterDriver`: panics (modelled as `Except.error` with the panic
message, the registry left unchanged) on a nil driver or empty name, otherwise
stores the driver under the name, overwriting any previous entry. -/
def RegisterDriver (reg : Registry) (name : String) (driver : Option Driver) :
    Except String Registry :=
  match driver with
  | none => .error "where: RegisterDriver driver is nil"
  | some d =>
    if name = "" then .error "where: RegisterDriver name is empty"
    else .ok (fun n => if n = name then some d else reg n)

/-- `GetDriver`: look the name up, or fail with the not-registered error
(`driver %q not registered`). -/
def GetDriver (reg : Registry) (name : String) : Except String Driver :=
  match reg name with
  | some d => .ok d
  | none => .error ("driver \"" ++ name ++ "\" not registered")

/-! ## AST (`grammar.go`) -/

/-- `CompareOperator`: the captured comparison-operator token text. -/
structure CompareOperator where
  type : String
deriving DecidableEq

/-- `CompareOperator.String()`: map token-type names to SQL operators, fall
through to the stored text (the participle capture stores the token text, so
the default branch applies to every parsed operator). -/
def CompareOperator.render (op : CompareOperator) : String :=
  if op.type = "Equal" then "="
  else if op.type = "NotEqual" then "!="
  else if op.type = "Less" then "<"
  else if op.type = "Greater" then ">"
  else if op.type = "LessOrEqual" then "<="
  else if op.type = "GreaterOrEqual" then ">="
  else op.type

/-- `LikeType`: the captured `LIKE`/`ILIKE` token text. -/
structure LikeType where
  operator : String
deriving DecidableEq

/-- `BooleanLit`: participle sets `t` for a `TRUE` token and `f` for `FALSE`;
`Value()` returns `t`. -/
structure BooleanLit where
  t : Bool
  f : Bool
deriving DecidableEq

/-- `IsNullOp`: captured `IS` text, optional `NOT`, captured `NULL` text. -/
structure IsNullOp where
  isTok : String
  neg : Bool
  nullTok : String
deriving DecidableEq

/-- `FieldRef`: dot-separated identifier parts, quoted parts keep their
delimiters (stripped later by the SQL builder). -/
structure FieldRef where
  parts : List String
deriving DecidableEq

/-- `LiteralValue`: one optional variant per literal kind; string literals
keep their quotes (stripped by the SQL builder), numbers are the parsed
`float64` payload modelled as `ℚ`. -/
structure LiteralValue where
  str : Option String
  num : Option ℚ
  boolean : Option BooleanLit
  null : Bool
deriving DecidableEq

mutual

/-- `Expression`: OR-combined terms. -/
inductive Expression where
  | mk (orTerms : List Term)

/-- `Term`: AND-combined factors. -/
inductive Term where
  | mk (andFactors : List Factor)

/-- `Factor`: optional NOT, then a parenthesized sub-expression or a
predicate (each optional in the source struct). -/
inductive Factor where
  | mk (neg : Bool) (subExpr : Option Expression) (pred : Option Predicate)

/-- `Predicate`: left value plus operation. -/
inductive Predicate where
  | mk (left : Option Value) (operation : Option Operation)

/-- `Operation`: one optional variant per operation kind. -/
inductive Operation where
  | mk (between : Option BetweenOp) (inOp : Option InOp) (likeOp : Option LikeOp)
       (compare : Option CompareOp) (isNull : Option IsNullOp)

/-- `CompareOp`: operator and right-hand value. -/
inductive CompareOp where
  | mk (operator : CompareOperator) (right : Option Value)

/-- `LikeOp`: optional NOT, LIKE/ILIKE type, pattern value. -/
inductive LikeOp where
  | mk (neg : Bool) (type : LikeType) (pattern : Option Value)

/-- `BetweenOp`: optional NOT, captured `BETWEEN` text, lower bound,
captured `AND` text, upper bound. -/
inductive BetweenOp where
  | mk (neg : Bool) (betweenTok : String) (lower : Option Value) (andTok : String)
       (upper : Option Value)

/-- `InOp`: optional NOT, captured `IN` text, parenthesized value list. -/
inductive InOp where
  | mk (neg : Bool) (inTok : String) (values : List Value)

/-- `Value`: one optional variant — function call, field reference, literal,
or parenthesized sub-expression. -/
inductive Value where
  | mk (function : Option FunctionCall) (field : Option FieldRef)
       (literal : Option LiteralValue) (subExpr : Option Expression)

/-- `FunctionCall`: name and argument values. -/
inductive FunctionCall where
  | mk (name : String) (args : List Value)

end

/-- `Filter`: the root AST node (the source's `lexer.Position` is dropped;
`Expression` is a nilable pointer). -/
structure Filter where
  expression : Option Expression

def Expression.orTerms : Expression → List Term
  | .mk ts => ts

def Term.andFactors : Term → List Factor
  | .mk fs => fs

def FunctionCall.name : FunctionCall → String
  | .mk n _ => n

def FunctionCall.args : FunctionCall → List Value
  | .mk _ a => a

def InOp.values : InOp → List Value
  | .mk _ _ vs => vs

/-! ## SQL builder (`sql_builder.go`)

Each `build*` method of `SQLBuilder` becomes a function threading the
growing parameter list explicitly; the driver and the optional runtime
validator are the remaining `SQLBuilder` fields.  Results are
`Except BuildError (rendered SQL fragment × parameter list)`. -/

/-- Result type of the builder functions. -/
abbrev BRes := Except BuildError (String × List Param)

/-- The string-literal unquoting step of `buildLiteralValue`: strip the first
and last character when the text is wrapped in matching single or double
quotes. -/
def stripLiteralQuotes (s : String) : String :=
  match s.data with
  | c :: rest =>
    if rest ≠ [] &&
       ((c = sqChar && rest.getLast? = some sqChar) ||
        (c = dqChar && rest.getLast? = some dqChar)) then
      String.mk (rest.dropLast)
    else s
  | [] => s

/-- `buildLiteralValue`: `NULL`, `TRUE`/`FALSE` render bare; numbers and
strings (quotes stripped when the text is wrapped in matching single or
double quotes) are appended to the parameter list and render as the driver's
placeholder at the new 1-based length. -/
def buildLiteralValue (d : Driver) (lit : LiteralValue) (ps : List Param) : BRes :=
  if lit.null then .ok ("NULL", ps)
  else match lit.boolean with
  | some b => if b.t then .ok ("TRUE", ps) else .ok ("FALSE", ps)
  | none => match lit.num with
    | some q => .ok (d.Placeholder (ps.length + 1), ps ++ [.num q])
    | none => match lit.str with
      | some s => .ok (d.Placeholder (ps.length + 1), ps ++ [.str (stripLiteralQuotes s)])
      | none => .error .unrecognizedLiteral

/-- `buildFieldRef`'s per-part normalization: trim space, strip a wrapping
pair of backticks or double quotes, then quote via the driver. -/
def normalizeFieldPart (d : Driver) (part : String) : String :=
  let p := goTrimSpace part
  let p :=
    if goStarts p (String.mk [btChar]) && goEnds p (String.mk [btChar]) then
      String.mk (p.data.drop 1 |>.dropLast)
    else if goStarts p (String.mk [dqChar]) && goEnds p (String.mk [dqChar]) then
      String.mk (p.data.drop 1 |>.dropLast)
    else p
  d.QuoteIdentifier p

/-- `buildFieldRef`: reject empty part lists, enforce the runtime validator
on the full dotted name, then normalize and quote each part and re-join with
dots. -/
def buildFieldRef (d : Driver) (v : Option Validator) (field : FieldRef)
    (ps : List Param) : BRes :=
  match field.parts with
  | [] => .error .emptyField
  | parts =>
    match v with
    | some vv =>
      if !(IsFieldAllowed vv (goJoin parts ".")) then
        .error (.fieldNotAllowed (goJoin parts "."))
      else .ok (goJoin (parts.map (normalizeFieldPart d)) ".", ps)
    | none => .ok (goJoin (parts.map (normalizeFieldPart d)) ".", ps)

mutual

/-- `buildExpression`: empty term list is an error; a single term renders
bare; several terms render joined with ` OR ` and wrapped in parentheses. -/
def buildExpression (d : Driver) (v : Option Validator) (e : Expression)
    (ps : List Param) : BRes :=
  match e with
  | .mk [] => .error .emptyExpression
  | .mk [t] => buildTerm d v t ps
  | .mk (t1 :: t2 :: ts) =>
    match buildTermList d v (t1 :: t2 :: ts) ps with
    | .error err => .error err
    | .ok (parts, ps') => .ok ("(" ++ goJoin parts " OR " ++ ")", ps')

/-- The loop of `buildExpression` over its terms. -/
def buildTermList (d : Driver) (v : Option Validator) (ts : List Term)
    (ps : List Param) : Except BuildError (List String × List Param) :=
  match ts with
  | [] => .ok ([], ps)
  | t :: rest =>
    match buildTerm d v t ps with
    | .error err => .error err
    | .ok (s, ps') =>
      match buildTermList d v rest ps' with
      | .error err => .error err
      | .ok (ss, ps'') => .ok (s :: ss, ps'')

/-- `buildTerm`: same shape as `buildExpression` with ` AND `. -/
def buildTerm (d : Driver) (v : Option Validator) (t : Term)
    (ps : List Param) : BRes :=
  match t with
  | .mk [] => .error .emptyTerm
  | .mk [f] => buildFactor d v f ps
  | .mk (f1 :: f2 :: fs) =>
    match buildFactorList d v (f1 :: f2 :: fs) ps with
    | .error err => .error err
    | .ok (parts, ps') => .ok ("(" ++ goJoin parts " AND " ++ ")", ps')

/-- The loop of `buildTerm` over its factors. -/
def buildFactorList (d : Driver) (v : Option Validator) (fs : List Factor)
    (ps : List Param) : Except BuildError (List String × List Param) :=
  match fs with
  | [] => .ok ([], ps)
  | f :: rest =>
    match buildFactor d v f ps with
    | .error err => .error err
    | .ok (s, ps') =>
      match buildFactorList d v rest ps' with
      | .error err => .error err
      | .ok (ss, ps'') => .ok (s :: ss, ps'')

/-- `buildFactor`: render the sub-expression or predicate, then wrap in
`NOT (...)` when negated. -/
def buildFactor (d : Driver) (v : Option Validator) (f : Factor)
    (ps : List Param) : BRes :=
  match f with
  | .mk neg se pr =>
    let inner : BRes :=
      match se with
      | some e => buildExpression d v e ps
      | none =>
        match pr with
        | some p => buildPredicate d v p ps
        | none => .error .emptyFactorContent
    match inner with
    | .error err => .error err
    | .ok (s, ps') => if neg then .ok ("NOT (" ++ s ++ ")", ps') else .ok (s, ps')

/-- `buildPredicate`: left value first, then the operation. -/
def buildPredicate (d : Driver) (v : Option Validator) (p : Predicate)
    (ps : List Param) : BRes :=
  match p with
  | .mk left op =>
    match buildValueOpt d v left ps with
    | .error err => .error err
    | .ok r1 => buildPredicateOp d v op r1

/-- The tail of `buildPredicate` after the left value is rendered: require
an operation and dispatch on it. -/
def buildPredicateOp (d : Driver) (v : Option Validator) (op : Option Operation)
    (r1 : String × List Param) : BRes :=
  match op with
  | none => .error .predicateMissingOperation
  | some o => buildOperation d v r1.1 o r1.2

/-- `buildOperation`: dispatch in source order — compare, like, between,
in, is-null. -/
def buildOperation (d : Driver) (v : Option Validator) (leftVal : String)
    (o : Operation) (ps : List Param) : BRes :=
  match o with
  | .mk between inOp likeOp compare isNull =>
    match compare with
    | some c => buildCompare d v leftVal c ps
    | none =>
      match likeOp with
      | some l => buildLike d v leftVal l ps
      | none =>
        match between with
        | some b => buildBetween d v leftVal b ps
        | none =>
          match inOp with
          | some i => buildIn d v leftVal i ps
          | none =>
            match isNull with
            | some n =>
              if n.neg then .ok (leftVal ++ " IS NOT NULL", ps)
              else .ok (leftVal ++ " IS NULL", ps)
            | none => .error .unrecognizedOperation

/-- `buildCompare`: `<left> <op> <right>`. -/
def buildCompare (d : Driver) (v : Option Validator) (leftVal : String)
    (c : CompareOp) (ps : List Param) : BRes :=
  match c with
  | .mk op right =>
    match buildValueOpt d v right ps with
    | .error err => .error err
    | .ok (rightVal, ps') => .ok (leftVal ++ " " ++ op.render ++ " " ++ rightVal, ps')

/-- `buildLike`: build the pattern, uppercase and possibly negate the
operator, translate it via the driver, and — only when the driver's name is
`"mysql"` and the source operator contains `ILIKE` — wrap both operands in
`LOWER(...)`. -/
def buildLike (d : Driver) (v : Option Validator) (leftVal : String)
    (l : LikeOp) (ps : List Param) : BRes :=
  match l with
  | .mk neg ty pat =>
    match buildValueOpt d v pat ps with
    | .error err => .error err
    | .ok (patternVal, ps') =>
      let operator := goUpper ty.operator
      let operator := if neg then "NOT " ++ operator else operator
      let tr := d.TranslateOperator operator
      if !tr.2 then .error (.operatorNotSupported operator d.Name)
      else
        let wrap := d.Name = "mysql" && goContains (goUpper ty.operator) "ILIKE"
        let lhs := if wrap then "LOWER(" ++ leftVal ++ ")" else leftVal
        let rhs := if wrap then "LOWER(" ++ patternVal ++ ")" else patternVal
        .ok (lhs ++ " " ++ tr.1 ++ " " ++ rhs, ps')

/-- `buildBetween`: `<left> (NOT)? BETWEEN <lower> AND <upper>`. -/
def buildBetween (d : Driver) (v : Option Validator) (leftVal : String)
    (b : BetweenOp) (ps : List Param) : BRes :=
  match b with
  | .mk neg _ lower _ upper =>
    match buildValueOpt d v lower ps with
    | .error err => .error err
    | .ok (lo, ps') =>
      match buildValueOpt d v upper ps' with
      | .error err => .error err
      | .ok (hi, ps'') =>
        let sqlOp := if neg then "NOT BETWEEN" else "BETWEEN"
        .ok (leftVal ++ " " ++ sqlOp ++ " " ++ lo ++ " AND " ++ hi, ps'')

/-- `buildIn`: re-check non-emptiness, render each value in order, join with
`", "` inside parentheses. -/
def buildIn (d : Driver) (v : Option Validator) (leftVal : String)
    (i : InOp) (ps : List Param) : BRes :=
  match i with
  | .mk neg _ values =>
    match values with
    | [] => .error .emptyIn
    | _ :: _ =>
      match buildValueList d v values ps with
      | .error err => .error err
      | .ok (items, ps') =>
        let sqlOp := if neg then "NOT IN" else "IN"
        .ok (leftVal ++ " " ++ sqlOp ++ " (" ++ goJoin items ", " ++ ")", ps')

/-- The loop of `buildIn` / `buildFunctionCall` over value lists. -/
def buildValueList (d : Driver) (v : Option Validator) (vs : List Value)
    (ps : List Param) : Except BuildError (List String × List Param) :=
  match vs with
  | [] => .ok ([], ps)
  | x :: rest =>
    match buildValue d v x ps with
    | .error err => .error err
    | .ok (s, ps') =>
      match buildValueList d v rest ps' with
      | .error err => .error err
      | .ok (ss, ps'') => .ok (s :: ss, ps'')

/-- `buildValue` on a non-nil value: dispatch in source order — function,
field, literal, sub-expression. -/
def buildValue (d : Driver) (v : Option Validator) (val : Value)
    (ps : List Param) : BRes :=
  match val with
  | .mk fc field lit se =>
    match fc with
    | some f => buildFunctionCall d v f ps
    | none =>
      match field with
      | some fr => buildFieldRef d v fr ps
      | none =>
        match lit with
        | some l => buildLiteralValue d l ps
        | none =>
          match se with
          | some e => buildExpression d v e ps
          | none => .error .unrecognizedValue

/-- `buildValue` on a nilable value pointer: nil is the `nil value` error. -/
def buildValueOpt (d : Driver) (v : Option Validator) (val : Option Value)
    (ps : List Param) : BRes :=
  match val with
  | none => .error .nilValue
  | some x => buildValue d v x ps

/-- `buildFunctionCall`: runtime-validate the name, translate name+arity via
the driver, then (for non-empty argument lists) render each argument in
order and substitute into the template. -/
def buildFunctionCall (d : Driver) (v : Option Validator) (f : FunctionCall)
    (ps : List Param) : BRes :=
  match f with
  | .mk name args =>
    let allowed := match v with
      | some vv => IsFunctionAllowed vv name
      | none => true
    if !allowed then .error (.functionNotAllowed name)
    else
      let tr := d.TranslateFunction name args.length
      if !tr.2 then .error (.functionNotSupported name args.length d.Name)
      else
        match args with
        | [] => .ok (tr.1, ps)
        | _ :: _ =>
          match buildValueList d v args ps with
          | .error err => .error err
          | .ok (argStrs, ps') => .ok (goSprintf tr.1 argStrs, ps')

end

/-- `Filter.ToSQL`: resolve the driver first (unregistered names fail here),
then guard against a nil filter or nil root expression (`empty filter`),
then build; on any error the Go function returns empty SQL and nil params
beside the error, modelled as the triple's first two components. -/
def ToSQL (reg : Registry) (f : Option Filter) (driverName : String)
    (v : Option Validator) : String × List Param × Option SQLError :=
  match GetDriver reg driverName with
  | .error _ => ("", [], some (.driverNotFound driverName))
  | .ok d =>
    match f with
    | none => ("", [], some .emptyFilter)
    | some fl =>
      match fl.expression with
      | none => ("", [], some .emptyFilter)
      | some e =>
        match buildExpression d v e [] with
        | .error err => ("", [], some (.build err))
        | .ok (sql, ps) => (sql, ps, none)

/-! ## Parse-time validator (`parser.go`) -/

/-- The `parserOptions` struct: depth limit, IN-size limit, optional
parse-time allowed-function set (stored uppercased by `WithFunctions`). -/
structure ParserOptions where
  maxDepth : Nat
  maxINItems : Nat
  allowedFuncs : Option (List String)

/-- The defaults installed by `NewParser`. -/
def defaultParserOptions : ParserOptions :=
  ⟨10, 1000, none⟩

/-- Result type of the parse-time validation walk. -/
abbrev VRes := Except String Unit

mutual

/-- `validateExpression`: fail when `depth` exceeds `maxDepth`; an absent or
empty expression is otherwise fine; recurse into every term. -/
def validateExpression (o : ParserOptions) (e : Expression) (depth : Nat) : VRes :=
  if depth > o.maxDepth then
    .error ("expression depth exceeds maximum of " ++ toString o.maxDepth)
  else
    match e with
    | .mk ts => validateTermList o ts depth

/-- The loop of `validateExpression` over its terms. -/
def validateTermList (o : ParserOptions) (ts : List Term) (depth : Nat) : VRes :=
  match ts with
  | [] => .ok ()
  | t :: rest =>
    match validateTerm o t depth with
    | .error err => .error err
    | .ok _ => validateTermList o rest depth

/-- `validateTerm`: an empty factor list is fine; recurse into every factor. -/
def validateTerm (o : ParserOptions) (t : Term) (depth : Nat) : VRes :=
  match t with
  | .mk fs => validateFactorList o fs depth

/-- The loop of `validateTerm` over its factors. -/
def validateFactorList (o : ParserOptions) (fs : List Factor) (depth : Nat) : VRes :=
  match fs with
  | [] => .ok ()
  | f :: rest =>
    match validateFactor o f depth with
    | .error err => .error err
    | .ok _ => validateFactorList o rest depth

/-- `validateFactor`: a parenthesized sub-expression is validated at
`depth + 1`; otherwise the predicate is validated; a factor with neither is
an error. -/
def validateFactor (o : ParserOptions) (f : Factor) (depth : Nat) : VRes :=
  match f with
  | .mk _ se pr =>
    match se with
    | some e => validateExpression o e (depth + 1)
    | none =>
      match pr with
      | some p => validatePredicate o p
      | none => .error "empty factor content"

/-- `validatePredicate`: validate the left value, require an operation,
validate it. -/
def validatePredicate (o : ParserOptions) (p : Predicate) : VRes :=
  match p with
  | .mk left op =>
    match validateValueOpt o left with
    | .error err => .error err
    | .ok _ => validatePredicateOp o op

/-- The tail of `validatePredicate`: require an operation and validate it. -/
def validatePredicateOp (o : ParserOptions) (op : Option Operation) : VRes :=
  match op with
  | none => .error "predicate missing operation"
  | some oo => validateOperation o oo

/-- `validateOperation`: dispatch in source order — compare, like, between,
in (non-empty and at most `maxINItems` values, each validated), is-null. -/
def validateOperation (o : ParserOptions) (op : Operation) : VRes :=
  match op with
  | .mk between inOp likeOp compare isNull =>
    match compare with
    | some (.mk _ right) => validateValueOpt o right
    | none =>
      match likeOp with
      | some (.mk _ _ pat) => validateValueOpt o pat
      | none =>
        match between with
        | some (.mk _ _ lower _ upper) =>
          match validateValueOpt o lower with
          | .error err => .error err
          | .ok _ => validateValueOpt o upper
        | none =>
          match inOp with
          | some (.mk _ _ values) =>
            if values.length = 0 then
              .error "IN expression requires at least one value"
            else if values.length > o.maxINItems then
              .error ("IN expression exceeds maximum of " ++ toString o.maxINItems ++ " items")
            else validateValueList o values
          | none =>
            match isNull with
            | some _ => .ok ()
            | none => .error "operation has no valid type"

/-- The loop of `validateOperation` over IN values and of `validateValue`
over function arguments. -/
def validateValueList (o : ParserOptions) (vs : List Value) : VRes :=
  match vs with
  | [] => .ok ()
  | x :: rest =>
    match validateValue o x with
    | .error err => .error err
    | .ok _ => validateValueList o rest

/-- `validateValue` on a non-nil value: check the parse-time function
allow-list (when configured) and the function arguments; then validate a
parenthesized sub-value at depth 0 (the depth counter resets at this
boundary). -/
def validateValue (o : ParserOptions) (val : Value) : VRes :=
  match val with
  | .mk fc _ _ se =>
    match validateValueFn o fc with
    | .error err => .error err
    | .ok _ => validateValueSub o se

/-- The function-call part of `validateValue`: the parse-time allow-list
check (when configured) and the recursive argument validation. -/
def validateValueFn (o : ParserOptions) (fc : Option FunctionCall) : VRes :=
  match fc with
  | some (.mk name args) =>
    match o.allowedFuncs with
    | some allowed =>
      if !(allowed.contains (goUpper name)) then
        .error ("function \"" ++ name ++ "\" is not allowed")
      else validateValueList o args
    | none => validateValueList o args
  | none => .ok ()

/-- The sub-expression part of `validateValue`: a parenthesized sub-value is
re-validated at depth 0. -/
def validateValueSub (o : ParserOptions) (se : Option Expression) : VRes :=
  match se with
  | some e => validateExpression o e 0
  | none => .ok ()

/-- `validateValue` on a nilable pointer: nil is fine. -/
def validateValueOpt (o : ParserOptions) (val : Option Value) : VRes :=
  match val with
  | none => .ok ()
  | some x => validateValue o x

end

/-- `Parser.validate`: validate the root expression at depth 0 (a nil root
is validated as an absent expression, which succeeds at depth 0). -/
def validateFilter (o : ParserOptions) (f : Filter) : VRes :=
  match f.expression with
  | some e => validateExpression o e 0
  | none => if 0 > o.maxDepth then
      .error ("expression depth exceeds maximum of " ++ toString o.maxDepth)
    else .ok ()

/-! ## Lexer (`NewLexer` in `lexer.go`)

The participle simple lexer tries the rule list in order at each input
position; the first rule that matches wins; whitespace tokens are elided.
Keyword rules are case-insensitive whole words (the trailing `\b` requires
the next character, if any, to be outside `[A-Za-z0-9_]`). -/

/-- Token kinds, one per lexer rule (whitespace is elided before parsing). -/
inductive TokKind where
  | kAnd | kOr | kNot | kBetween | kIn | kLike | kILike | kIs | kNull | kTrue | kFalse
  | kNotEqual | kLessOrEqual | kGreaterOrEqual | kEqual | kLess | kGreater
  | kString | kBacktickIdent | kQuotedIdent | kDoubleQuotedString
  | kNumber | kIdent | kDot | kLParen | kRParen | kComma
deriving DecidableEq

/-- A token: its rule kind and its matched text (original casing kept). -/
structure Token where
  kind : TokKind
  text : String
deriving DecidableEq

/-- Case-insensitive literal match, returning the original matched characters
and the rest. -/
def matchCI : List Char → List Char → Option (List Char × List Char)
  | [], cs => some ([], cs)
  | _ :: _, [] => none
  | k :: ks, c :: cs =>
    if c.toUpper = k.toUpper then
      match matchCI ks cs with
      | some (m, rest) => some (c :: m, rest)
      | none => none
    else none

/-- Whole-word case-insensitive keyword match (`(?i)\bKW\b`). -/
def matchKeyword (kw : String) (cs : List Char) : Option (List Char × List Char) :=
  match matchCI kw.data cs with
  | some (m, rest) =>
    match rest with
    | [] => some (m, [])
    | c :: _ => if isWordChar c then none else some (m, rest)
  | none => none

/-- Exact literal match (the comparison-operator rules). -/
def matchLit (lit : String) (cs : List Char) : Option (List Char × List Char) :=
  if listStarts lit.data cs then some (cs.take lit.data.length, cs.drop lit.data.length)
  else none

/-- The body loop of a quoted string rule: `([^q\\]|\\.)*` followed by the
closing quote `q`; returns body-and-closing-quote characters. -/
def matchStringBody (q : Char) : List Char → Option (List Char × List Char)
  | [] => none
  | c :: cs =>
    if c = q then some ([c], cs)
    else if c = bsChar then
      match cs with
      | [] => none
      | e :: cs' =>
        match matchStringBody q cs' with
        | some (m, rest) => some (c :: e :: m, rest)
        | none => none
    else
      match matchStringBody q cs with
      | some (m, rest) => some (c :: m, rest)
      | none => none

/-- A quoted string literal rule: opening quote, escaped body, closing quote. -/
def matchQuoted (q : Char) (cs : List Char) : Option (List Char × List Char) :=
  match cs with
  | c :: rest =>
    if c = q then
      match matchStringBody q rest with
      | some (m, rest') => some (c :: m, rest')
      | none => none
    else none
  | [] => none

/-- The `BacktickIdent` rule: `` `[^`]+` ``. -/
def matchBacktickIdent (cs : List Char) : Option (List Char × List Char) :=
  match cs with
  | c :: rest =>
    if c = btChar then
      let body := rest.takeWhile (fun x => x ≠ btChar)
      let rest' := rest.dropWhile (fun x => x ≠ btChar)
      if body.length = 0 then none
      else match rest' with
        | e :: rest'' => if e = btChar then some (c :: body ++ [e], rest'') else none
        | [] => none
    else none
  | [] => none

/-- The `QuotedIdent` rule: `"[a-zA-Z_][a-zA-Z0-9_]*"`. -/
def matchQuotedIdent (cs : List Char) : Option (List Char × List Char) :=
  match cs with
  | c :: c2 :: rest =>
    if c = dqChar && isIdentStart c2 then
      let body := rest.takeWhile isWordChar
      let rest' := rest.dropWhile isWordChar
      match rest' with
      | e :: rest'' => if e = dqChar then some (c :: c2 :: body ++ [e], rest'') else none
      | [] => none
    else none
  | _ => none

/-- The `Ident` rule: `[a-zA-Z_][a-zA-Z0-9_]*`. -/
def matchIdent (cs : List Char) : Option (List Char × List Char) :=
  match cs with
  | c :: rest =>
    if isIdentStart c then
      some (c :: rest.takeWhile isWordChar, rest.dropWhile isWordChar)
    else none
  | [] => none

/-- The `Number` rule: `[-+]?\d+(\.\d+)?([eE][-+]?\d+)?`; the optional groups
only match when complete. -/
def matchNumber (cs : List Char) : Option (List Char × List Char) :=
  let (sign, afterSign) :=
    match cs with
    | c :: rest => if c = '-' || c = '+' then ([c], rest) else (([] : List Char), cs)
    | [] => ([], cs)
  let intPart := afterSign.takeWhile isDigitChar
  let afterInt := afterSign.dropWhile isDigitChar
  if intPart.length = 0 then none
  else
    let (fracPart, afterFrac) :=
      match afterInt with
      | c :: rest =>
        if c = '.' then
          let ds := rest.takeWhile isDigitChar
          if ds.length = 0 then (([] : List Char), afterInt)
          else (c :: ds, rest.dropWhile isDigitChar)
        else ([], afterInt)
      | [] => ([], afterInt)
    let (expPart, afterExp) :=
      match afterFrac with
      | c :: rest =>
        if c = 'e' || c = 'E' then
          let (esign, afterEsign) :=
            match rest with
            | e :: rest' => if e = '-' || e = '+' then ([e], rest') else (([] : List Char), rest)
            | [] => ([], rest)
          let ds := afterEsign.takeWhile isDigitChar
          if ds.length = 0 then (([] : List Char), afterFrac)
          else (c :: esign ++ ds, afterEsign.dropWhile isDigitChar)
        else ([], afterFrac)
      | [] => ([], afterFrac)
    some (sign ++ intPart ++ fracPart ++ expPart, afterExp)

/-- One lexer step: try every rule in declaration order; whitespace yields no
token; returns `none` on an unmatched character (a fatal lex error). -/
def lexStep (cs : List Char) : Option (Option Token × List Char) :=
  let spaces := cs.takeWhile isSpaceChar
  if spaces.length ≠ 0 then some (none, cs.dropWhile isSpaceChar)
  else
    let kw : List (String × TokKind) :=
      [("AND", .kAnd), ("OR", .kOr), ("NOT", .kNot), ("BETWEEN", .kBetween),
       ("IN", .kIn), ("LIKE", .kLike), ("ILIKE", .kILike), ("IS", .kIs),
       ("NULL", .kNull), ("TRUE", .kTrue), ("FALSE", .kFalse)]
    match kw.firstM (fun (w, k) => (matchKeyword w cs).map (fun r => (k, r))) with
    | some (k, (m, rest)) => some (some ⟨k, String.mk m⟩, rest)
    | none =>
      match matchLit "!=" cs with
      | some (m, rest) => some (some ⟨.kNotEqual, String.mk m⟩, rest)
      | none =>
      match matchLit "<>" cs with
      | some (m, rest) => some (some ⟨.kNotEqual, String.mk m⟩, rest)
      | none =>
      match matchLit "<=" cs with
      | some (m, rest) => some (some ⟨.kLessOrEqual, String.mk m⟩, rest)
      | none =>
      match matchLit ">=" cs with
      | some (m, rest) => some (some ⟨.kGreaterOrEqual, String.mk m⟩, rest)
      | none =>
      match matchLit "=" cs with
      | some (m, rest) => some (some ⟨.kEqual, String.mk m⟩, rest)
      | none =>
      match matchLit "<" cs with
      | some (m, rest) => some (some ⟨.kLess, String.mk m⟩, rest)
      | none =>
      match matchLit ">" cs with
      | some (m, rest) => some (some ⟨.kGreater, String.mk m⟩, rest)
      | none =>
      match matchQuoted sqChar cs with
      | some (m, rest) => some (some ⟨.kString, String.mk m⟩, rest)
      | none =>
      match matchBacktickIdent cs with
      | some (m, rest) => some (some ⟨.kBacktickIdent, String.mk m⟩, rest)
      | none =>
      match matchQuotedIdent cs with
      | some (m, rest) => some (some ⟨.kQuotedIdent, String.mk m⟩, rest)
      | none =>
      match matchQuoted dqChar cs with
      | some (m, rest) => some (some ⟨.kDoubleQuotedString, String.mk m⟩, rest)
      | none =>
      match matchNumber cs with
      | some (m, rest) => some (some ⟨.kNumber, String.mk m⟩, rest)
      | none =>
      match matchIdent cs with
      | some (m, rest) => some (some ⟨.kIdent, String.mk m⟩, rest)
      | none =>
      match matchLit "." cs with
      | some (m, rest) => some (some ⟨.kDot, String.mk m⟩, rest)
      | none =>
      match matchLit "(" cs with
      | some (m, rest) => some (some ⟨.kLParen, String.mk m⟩, rest)
      | none =>
      match matchLit ")" cs with
      | some (m, rest) => some (some ⟨.kRParen, String.mk m⟩, rest)
      | none =>
      match matchLit "," cs with
      | some (m, rest) => some (some ⟨.kComma, String.mk m⟩, rest)
      | none => none

/-- Run the lexer to completion (the fuel is an upper bound on the number of
steps; every step consumes at least one character). -/
def lexAll (fuel : Nat) (cs : List Char) : Except String (List Token) :=
  match fuel with
  | 0 => .error "lexer fuel exhausted"
  | fuel + 1 =>
    match cs with
    | [] => .ok []
    | _ =>
      match lexStep cs with
      | none => .error "invalid input text"
      | some (tok?, rest) =>
        match lexAll fuel rest with
        | .error e => .error e
        | .ok toks =>
          match tok? with
          | some t => .ok (t :: toks)
          | none => .ok toks

/-- Digits to a natural number. -/
def digitsToNat (ds : List Char) : Nat :=
  ds.foldl (fun n c => n * 10 + (c.toNat - 48)) 0

/-- The numeric value of a `Number` token (Go parses it as `float64`;
modelled exactly as a rational).  The mantissa and decimal scaling are
computed over `Nat`/`Int`; only a number whose net decimal exponent is
negative needs an actual rational division. -/
def ratOfNumberText (s : String) : ℚ :=
  let (neg, afterSign) :=
    match s.data with
    | c :: rest => if c = '-' then (true, rest) else if c = '+' then (false, rest) else (false, s.data)
    | [] => (false, s.data)
  let intPart := afterSign.takeWhile isDigitChar
  let afterInt := afterSign.dropWhile isDigitChar
  let (fracDigits, afterFrac) :=
    match afterInt with
    | c :: rest =>
      if c = '.' then (rest.takeWhile isDigitChar, rest.dropWhile isDigitChar)
      else (([] : List Char), afterInt)
    | [] => ([], afterInt)
  let expVal : ℤ :=
    match afterFrac with
    | c :: rest =>
      if c = 'e' || c = 'E' then
        match rest with
        | e :: rest' =>
          if e = '-' then -(digitsToNat (rest'.takeWhile isDigitChar) : ℤ)
          else if e = '+' then (digitsToNat (rest'.takeWhile isDigitChar) : ℤ)
          else (digitsToNat (rest.takeWhile isDigitChar) : ℤ)
        | [] => 0
      else 0
    | [] => 0
  let mantissa : Nat := digitsToNat intPart * 10 ^ fracDigits.length + digitsToNat fracDigits
  let scale : ℤ := expVal - fracDigits.length
  let signedUnscaled : ℤ := if neg then -(mantissa : ℤ) else (mantissa : ℤ)
  if 0 ≤ scale then ((signedUnscaled * 10 ^ scale.toNat : ℤ) : ℚ)
  else ((signedUnscaled : ℚ) / ((10 ^ (-scale).toNat : ℤ) : ℚ))

/-! ## Parser (`grammar.go` struct-tag grammar under participle)

A PEG-style recursive-descent parser over the token stream, one function per
grammar production, alternatives tried in declaration order with
backtracking; star loops stop at the first failing iteration.  All functions
consume fuel at entry; `ParseString` supplies enough fuel for any input. -/

/-- Consume one token of the given kind. -/
def pTok (k : TokKind) (ts : List Token) : Option (Token × List Token) :=
  match ts with
  | t :: rest => if t.kind = k then some (t, rest) else none
  | [] => none

/-- Consume an optional `NOT`. -/
def pOptNot (ts : List Token) : Bool × List Token :=
  match ts with
  | t :: rest => if t.kind = .kNot then (true, rest) else (false, ts)
  | [] => (false, ts)

/-- `IsNullOp := IS NOT? NULL` (no fuel needed: consumes fixed tokens). -/
def parseIsNull (ts : List Token) : Option (IsNullOp × List Token) :=
  match pTok .kIs ts with
  | none => none
  | some (itok, r1) =>
    let (neg, r2) := pOptNot r1
    match pTok .kNull r2 with
    | none => none
    | some (ntok, r3) => some (⟨itok.text, neg, ntok.text⟩, r3)

mutual

/-- `Expression := Term ( OR Term )*`. -/
def parseExpr (fuel : Nat) (ts : List Token) : Option (Expression × List Token) :=
  match fuel with
  | 0 => none
  | fuel + 1 =>
    match parseTerm fuel ts with
    | none => none
    | some (t, rest) =>
      match parseOrRest fuel rest with
      | some (more, rest') => some (.mk (t :: more), rest')
      | none => none

/-- The `( OR Term )*` loop. -/
def parseOrRest (fuel : Nat) (ts : List Token) : Option (List Term × List Token) :=
  match fuel with
  | 0 => none
  | fuel + 1 =>
    match pTok .kOr ts with
    | none => some ([], ts)
    | some (_, rest) =>
      match parseTerm fuel rest with
      | none => some ([], ts)
      | some (t, rest') =>
        match parseOrRest fuel rest' with
        | some (more, rest'') => some (t :: more, rest'')
        | none => none

/-- `Term := Factor ( AND Factor )*`. -/
def parseTerm (fuel : Nat) (ts : List Token) : Option (Term × List Token) :=
  match fuel with
  | 0 => none
  | fuel + 1 =>
    match parseFactor fuel ts with
    | none => none
    | some (f, rest) =>
      match parseAndRest fuel rest with
      | some (more, rest') => some (.mk (f :: more), rest')
      | none => none

/-- The `( AND Factor )*` loop. -/
def parseAndRest (fuel : Nat) (ts : List Token) : Option (List Factor × List Token) :=
  match fuel with
  | 0 => none
  | fuel + 1 =>
    match pTok .kAnd ts with
    | none => some ([], ts)
    | some (_, rest) =>
      match parseFactor fuel rest with
      | none => some ([], ts)
      | some (f, rest') =>
        match parseAndRest fuel rest' with
        | some (more, rest'') => some (f :: more, rest'')
        | none => none

/-- `Factor := NOT? ( '(' Expression ')' | Predicate )`. -/
def parseFactor (fuel : Nat) (ts : List Token) : Option (Factor × List Token) :=
  match fuel with
  | 0 => none
  | fuel + 1 =>
    let (neg, ts1) := pOptNot ts
    let paren : Option (Factor × List Token) :=
      match pTok .kLParen ts1 with
      | none => none
      | some (_, r1) =>
        match parseExpr fuel r1 with
        | none => none
        | some (e, r2) =>
          match pTok .kRParen r2 with
          | none => none
          | some (_, r3) => some (.mk neg (some e) none, r3)
    match paren with
    | some res => some res
    | none =>
      match parsePred fuel ts1 with
      | some (p, rest) => some (.mk neg none (some p), rest)
      | none => none

/-- `Predicate := Value Operation`. -/
def parsePred (fuel : Nat) (ts : List Token) : Option (Predicate × List Token) :=
  match fuel with
  | 0 => none
  | fuel + 1 =>
    match parseValue fuel ts with
    | none => none
    | some (v, rest) =>
      match parseOperation fuel rest with
      | none => none
      | some (o, rest') => some (.mk (some v) (some o), rest')

/-- `Operation := Between | In | Like | Compare | IsNull` (declaration
order). -/
def parseOperation (fuel : Nat) (ts : List Token) : Option (Operation × List Token) :=
  match fuel with
  | 0 => none
  | fuel + 1 =>
    match parseBetween fuel ts with
    | some (b, rest) => some (.mk (some b) none none none none, rest)
    | none =>
      match parseIn fuel ts with
      | some (i, rest) => some (.mk none (some i) none none none, rest)
      | none =>
        match parseLike fuel ts with
        | some (l, rest) => some (.mk none none (some l) none none, rest)
        | none =>
          match parseCompare fuel ts with
          | some (c, rest) => some (.mk none none none (some c) none, rest)
          | none =>
            match parseIsNull ts with
            | some (n, rest) => some (.mk none none none none (some n), rest)
            | none => none

/-- `BetweenOp := NOT? BETWEEN Value AND Value`. -/
def parseBetween (fuel : Nat) (ts : List Token) : Option (BetweenOp × List Token) :=
  match fuel with
  | 0 => none
  | fuel + 1 =>
    let (neg, ts1) := pOptNot ts
    match pTok .kBetween ts1 with
    | none => none
    | some (btok, r1) =>
      match parseValue fuel r1 with
      | none => none
      | some (lo, r2) =>
        match pTok .kAnd r2 with
        | none => none
        | some (atok, r3) =>
          match parseValue fuel r3 with
          | none => none
          | some (hi, r4) => some (.mk neg btok.text (some lo) atok.text (some hi), r4)

/-- `InOp := NOT? IN '(' Value ( ',' Value )* ')'`. -/
def parseIn (fuel : Nat) (ts : List Token) : Option (InOp × List Token) :=
  match fuel with
  | 0 => none
  | fuel + 1 =>
    let (neg, ts1) := pOptNot ts
    match pTok .kIn ts1 with
    | none => none
    | some (itok, r1) =>
      match pTok .kLParen r1 with
      | none => none
      | some (_, r2) =>
        match parseValue fuel r2 with
        | none => none
        | some (v1, r3) =>
          match parseCommaValues fuel r3 with
          | none => none
          | some (vs, r4) =>
            match pTok .kRParen r4 with
            | none => none
            | some (_, r5) => some (.mk neg itok.text (v1 :: vs), r5)

/-- The `( ',' Value )*` loop (IN lists and function arguments). -/
def parseCommaValues (fuel : Nat) (ts : List Token) : Option (List Value × List Token) :=
  match fuel with
  | 0 => none
  | fuel + 1 =>
    match pTok .kComma ts with
    | none => some ([], ts)
    | some (_, rest) =>
      match parseValue fuel rest with
      | none => some ([], ts)
      | some (v, rest') =>
        match parseCommaValues fuel rest' with
        | some (more, rest'') => some (v :: more, rest'')
        | none => none

/-- `LikeOp := NOT? (LIKE | ILIKE) Value`. -/
def parseLike (fuel : Nat) (ts : List Token) : Option (LikeOp × List Token) :=
  match fuel with
  | 0 => none
  | fuel + 1 =>
    let (neg, ts1) := pOptNot ts
    let ltok : Option (Token × List Token) :=
      match pTok .kLike ts1 with
      | some r => some r
      | none => pTok .kILike ts1
    match ltok with
    | none => none
    | some (t, r1) =>
      match parseValue fuel r1 with
      | none => none
      | some (v, r2) => some (.mk neg ⟨t.text⟩ (some v), r2)

/-- `CompareOp := (= | != | <= | >= | < | >) Value`. -/
def parseCompare (fuel : Nat) (ts : List Token) : Option (CompareOp × List Token) :=
  match fuel with
  | 0 => none
  | fuel + 1 =>
    let ctok : Option (Token × List Token) :=
      match ts with
      | t :: rest =>
        if t.kind = .kEqual || t.kind = .kNotEqual || t.kind = .kLessOrEqual ||
           t.kind = .kGreaterOrEqual || t.kind = .kLess || t.kind = .kGreater then
          some (t, rest)
        else none
      | [] => none
    match ctok with
    | none => none
    | some (t, r1) =>
      match parseValue fuel r1 with
      | none => none
      | some (v, r2) => some (.mk ⟨t.text⟩ (some v), r2)

/-- `Value := Function | Field | Literal | '(' Expression ')'` (declaration
order; a function call needs `Ident '('`). -/
def parseValue (fuel : Nat) (ts : List Token) : Option (Value × List Token) :=
  match fuel with
  | 0 => none
  | fuel + 1 =>
    let fnBranch : Option (Value × List Token) :=
      match pTok .kIdent ts with
      | none => none
      | some (nameTok, r1) =>
        match pTok .kLParen r1 with
        | none => none
        | some (_, r2) =>
          match pTok .kRParen r2 with
          | some (_, r3) => some (.mk (some (.mk nameTok.text [])) none none none, r3)
          | none =>
            match parseValue fuel r2 with
            | none => none
            | some (a1, r3) =>
              match parseCommaValues fuel r3 with
              | none => none
              | some (more, r4) =>
                match pTok .kRParen r4 with
                | none => none
                | some (_, r5) =>
                  some (.mk (some (.mk nameTok.text (a1 :: more))) none none none, r5)
    match fnBranch with
    | some res => some res
    | none =>
      let fieldTok : Option (Token × List Token) :=
        match pTok .kQuotedIdent ts with
        | some r => some r
        | none =>
          match pTok .kBacktickIdent ts with
          | some r => some r
          | none => pTok .kIdent ts
      match fieldTok with
      | some (t, r1) =>
        match parseDotParts fuel r1 with
        | some (more, r2) => some (.mk none (some ⟨t.text :: more⟩) none none, r2)
        | none => none
      | none =>
        let litBranch : Option (LiteralValue × List Token) :=
          match ts with
          | t :: rest =>
            if t.kind = .kString || t.kind = .kDoubleQuotedString then
              some (⟨some t.text, none, none, false⟩, rest)
            else if t.kind = .kNumber then
              some (⟨none, some (ratOfNumberText t.text), none, false⟩, rest)
            else if t.kind = .kTrue then
              some (⟨none, none, some ⟨true, false⟩, false⟩, rest)
            else if t.kind = .kFalse then
              some (⟨none, none, some ⟨false, true⟩, false⟩, rest)
            else if t.kind = .kNull then
              some (⟨none, none, none, true⟩, rest)
            else none
          | [] => none
        match litBranch with
        | some (l, r1) => some (.mk none none (some l) none, r1)
        | none =>
          match pTok .kLParen ts with
          | none => none
          | some (_, r1) =>
            match parseExpr fuel r1 with
            | none => none
            | some (e, r2) =>
              match pTok .kRParen r2 with
              | none => none
              | some (_, r3) => some (.mk none none none (some e), r3)

/-- The `( '.' Part )*` loop of `FieldRef`. -/
def parseDotParts (fuel : Nat) (ts : List Token) : Option (List String × List Token) :=
  match fuel with
  | 0 => none
  | fuel + 1 =>
    match pTok .kDot ts with
    | none => some ([], ts)
    | some (_, rest) =>
      let partTok : Option (Token × List Token) :=
        match pTok .kQuotedIdent rest with
        | some r => some r
        | none =>
          match pTok .kBacktickIdent rest with
          | some r => some r
          | none => pTok .kIdent rest
      match partTok with
      | none => some ([], ts)
      | some (t, rest') =>
        match parseDotParts fuel rest' with
        | some (more, rest'') => some (t.text :: more, rest'')
        | none => none

end

/-- Parse a whole token stream as a `Filter`, requiring full consumption. -/
def parseFilterToks (fuel : Nat) (ts : List Token) : Option Filter :=
  match parseExpr fuel ts with
  | some (e, []) => some ⟨some e⟩
  | _ => none

/-- `participle.Parser.ParseString`: lex, then parse with ample fuel. -/
def ParseString (input : String) : Except String Filter :=
  match lexAll (input.data.length + 1) input.data with
  | .error e => .error ("failed to parse filter expression: " ++ e)
  | .ok toks =>
    match parseFilterToks (16 * (toks.length + 2)) toks with
    | some f => .ok f
    | none => .error "failed to parse filter expression"

/-- `Parser.Parse`: reject empty input, parse, then run the parse-time
validation walk under the parser's options. -/
def ParseWith (o : ParserOptions) (input : String) : Except String Filter :=
  if input = "" then .error "empty filter expression"
  else
    match ParseString input with
    | .error e => .error e
    | .ok f =>
      match validateFilter o f with
      | .error e => .error ("filter validation failed: " ++ e)
      | .ok _ => .ok f

/-- The package-level `Parse`: a default parser's `Parse`. -/
def Parse (input : String) : Except String Filter :=
  ParseWith defaultParserOptions input

/-! ## Reference drivers (`drivers/postgres`, `drivers/mysql`) -/

/-- Modelled from the spec: the per-dialect reserved-word tables
(`keywords.go` of each driver package) are not part of the available source;
§4.4 specifies only that `keywords()` yields the dialect's reserved-word set
(uppercase).  A representative uppercase set containing the reserved words
exercised by the repository (`ORDER`, `SELECT`, `USER`, `TABLE`, ...) and
none of the plain field names used below. -/
def pgKeywords : List String :=
  ["ALL", "AND", "ANY", "AS", "ASC", "BETWEEN", "BY", "CASE", "CAST", "CHECK",
   "COLUMN", "CONSTRAINT", "CREATE", "CURRENT_DATE", "CURRENT_TIME",
   "CURRENT_TIMESTAMP", "CURRENT_USER", "DEFAULT", "DESC", "DISTINCT", "DO",
   "ELSE", "END", "EXCEPT", "FALSE", "FOR", "FOREIGN", "FROM", "GRANT",
   "GROUP", "HAVING", "IN", "INTERSECT", "INTO", "IS", "LIKE", "LIMIT",
   "NOT", "NULL", "OFFSET", "ON", "OR", "ORDER", "PRIMARY", "REFERENCES",
   "SELECT", "SESSION_USER", "SOME", "TABLE", "THEN", "TO", "TRUE", "UNION",
   "UNIQUE", "USER", "USING", "WHEN", "WHERE"]

/-- Modelled from the spec: the MySQL reserved-word table is not part of the
available source; a representative uppercase set (see `pgKeywords`). -/
def mysqlKeywords : List String :=
  ["ALL", "AND", "AS", "ASC", "BETWEEN", "BY", "CASE", "CHECK", "COLUMN",
   "CREATE", "DATABASE", "DEFAULT", "DELETE", "DESC", "DISTINCT", "DROP",
   "ELSE", "FALSE", "FOR", "FOREIGN", "FROM", "GRANT", "GROUP", "HAVING",
   "IN", "INSERT", "INTO", "IS", "JOIN", "KEY", "LIKE", "LIMIT", "NOT",
   "NULL", "ON", "OR", "ORDER", "PRIMARY", "REFERENCES", "SELECT", "TABLE",
   "THEN", "TO", "TRUE", "UNION", "UNIQUE", "UPDATE", "USER", "USING",
   "WHEN", "WHERE"]

/-- Modelled from the spec: §4.4's `translateFunction(name, argCount)`
capability; the exhaustive per-dialect name→template tables are
configuration data outside the specified core, and functions are passed
through generically — `NAME(%s, ..., %s)` with one slot per argument,
always supported.  (No property below depends on a specific template.) -/
def genericTranslateFunction (name : String) (argc : Nat) : String × Bool :=
  (name ++ "(" ++ goJoin (List.replicate argc "%s") ", " ++ ")", true)

/-- `PostgreSQLDriver.quoteSimpleIdentifier`: wrap in double quotes (doubling
embedded double quotes) when `NeedsQuoting` holds. -/
def pgQuoteSimple (keys : List String) (name : String) : String :=
  if NeedsQuotingWith keys name then
    String.mk [dqChar] ++ goReplaceAllChar name dqChar (String.mk [dqChar, dqChar]) ++
      String.mk [dqChar]
  else name

/-- `PostgreSQLDriver.QuoteIdentifier`: keep already-double-quoted input,
strip a backtick wrapping, quote dotted names part by part. -/
def pgQuoteIdentifier (keys : List String) (name : String) : String :=
  if name = "" then name
  else
    let name := goTrimSpace name
    if goStarts name (String.mk [dqChar]) && goEnds name (String.mk [dqChar]) then name
    else
      let name :=
        if goStarts name (String.mk [btChar]) && goEnds name (String.mk [btChar]) then
          String.mk (name.data.drop 1 |>.dropLast)
        else name
      if goContains name "." then
        goJoin ((goSplitChar name '.').map (pgQuoteSimple keys)) "."
      else pgQuoteSimple keys name

/-- `MySQLDriver.quoteSimpleIdentifier`: wrap in backticks (doubling embedded
backticks) when `NeedsQuoting` holds. -/
def mysqlQuoteSimple (keys : List String) (name : String) : String :=
  if NeedsQuotingWith keys name then
    String.mk [btChar] ++ goReplaceAllChar name btChar (String.mk [btChar, btChar]) ++
      String.mk [btChar]
  else name

/-- `MySQLDriver.QuoteIdentifier`: keep already-backtick-quoted input, strip
a double-quote wrapping, quote dotted names part by part. -/
def mysqlQuoteIdentifier (keys : List String) (name : String) : String :=
  if name = "" then name
  else
    let name := goTrimSpace name
    if goStarts name (String.mk [btChar]) && goEnds name (String.mk [btChar]) then name
    else
      let name :=
        if goStarts name (String.mk [dqChar]) && goEnds name (String.mk [dqChar]) then
          String.mk (name.data.drop 1 |>.dropLast)
        else name
      if goContains name "." then
        goJoin ((goSplitChar name '.').map (mysqlQuoteSimple keys)) "."
      else mysqlQuoteSimple keys name

/-- `PostgreSQLDriver.TranslateOperator`: comparisons pass through verbatim,
the keyword operators (including native `ILIKE`) uppercase; everything else
is unsupported. -/
def pgTranslateOperator (op : String) : String × Bool :=
  let upperOp := goUpper op
  if ["=", "!=", "<>", "<", ">", "<=", ">="].contains upperOp then (op, true)
  else if ["LIKE", "NOT LIKE", "ILIKE", "NOT ILIKE"].contains upperOp then (upperOp, true)
  else if ["IN", "NOT IN"].contains upperOp then (upperOp, true)
  else if ["IS NULL", "IS NOT NULL"].contains upperOp then (upperOp, true)
  else if ["BETWEEN", "NOT BETWEEN"].contains upperOp then (upperOp, true)
  else ("", false)

/-- The MySQL driver's `supportedOperations` slice. -/
def mysqlSupportedOperations : List String :=
  ["=", "!=", "<>", "<", ">", "<=", ">=",
   "LIKE", "NOT LIKE",
   "IN", "NOT IN",
   "IS NULL", "IS NOT NULL",
   "BETWEEN", "NOT BETWEEN"]

/-- `MySQLDriver.TranslateOperator`: uppercase and pass through the supported
operations; map `ILIKE`/`NOT ILIKE` onto `LIKE`/`NOT LIKE` (first-occurrence
string replacement); everything else is unsupported. -/
def mysqlTranslateOperator (op : String) : String × Bool :=
  let upperOp := goUpper op
  if mysqlSupportedOperations.contains upperOp then (upperOp, true)
  else if upperOp = "ILIKE" || upperOp = "NOT ILIKE" then
    (goReplaceOnce upperOp "ILIKE" "LIKE", true)
  else ("", false)

/-- The registered PostgreSQL driver instance. -/
def pgDriver : Driver where
  Name := "postgres"
  QuoteIdentifier := pgQuoteIdentifier pgKeywords
  Placeholder := fun n => "$" ++ toString n
  Keywords := pgKeywords
  TranslateOperator := pgTranslateOperator
  TranslateFunction := genericTranslateFunction
  SupportsFeature := fun f =>
    ["ARRAY", "CTE", "ILIKE", "JSON", "JSONB", "RETURNING", "WINDOW"].contains (goUpper f)

/-- The registered MySQL driver instance. -/
def mysqlDriver : Driver where
  Name := "mysql"
  QuoteIdentifier := mysqlQuoteIdentifier mysqlKeywords
  Placeholder := fun _ => "?"
  Keywords := mysqlKeywords
  TranslateOperator := mysqlTranslateOperator
  TranslateFunction := genericTranslateFunction
  SupportsFeature := fun f =>
    ["CTE", "FULLTEXT", "JSON", "PARTITION", "SPATIAL"].contains (goUpper f)

/-- The registry state after the `init()` functions of the two driver
packages present in the source have run (`postgres`/`postgresql`/`pg` alias
the PostgreSQL driver, `mysql`/`mariadb` the MySQL driver). -/
def defaultRegistry : Registry := fun n =>
  if n = "postgres" || n = "postgresql" || n = "pg" then some pgDriver
  else if n = "mysql" || n = "mariadb" then some mysqlDriver
  else none

/-- Parse with the default parser, then compile against the given registry,
driver name and optional runtime validator (`none` when parsing fails). -/
def ParseToSQL (reg : Registry) (v : Option Validator) (input driverName : String) :
    Option (String × List Param × Option SQLError) :=
  match Parse input with
  | .error _ => none
  | .ok f => some (ToSQL reg (some f) driverName v)

/-! ## Claim-side measures: parameters contributed by literals

`litE e` lists, in compilation order, the parameter values the builder
appends while compiling `e`: one entry per String/Number literal it reaches
(Boolean and Null literals contribute nothing), following the builder's
dispatch priorities.  `countE e` counts those String/Number literals. -/

/-- Parameters contributed by one literal: `NULL`/booleans none, numbers and
strings (quote-stripped) one each, mirrors the literal dispatch priority. -/
def litL (l : LiteralValue) : List Param :=
  if l.null then []
  else match l.boolean with
  | some _ => []
  | none => match l.num with
    | some q => [.num q]
    | none => match l.str with
      | some s => [.str (stripLiteralQuotes s)]
      | none => []

/-- String/Number literal count of one literal node. -/
def countL (l : LiteralValue) : Nat :=
  if l.null then 0
  else match l.boolean with
  | some _ => 0
  | none => match l.num with
    | some _ => 1
    | none => match l.str with
      | some _ => 1
      | none => 0

mutual

def litE : Expression → List Param
  | .mk ts => litTs ts

def litTs : List Term → List Param
  | [] => []
  | t :: ts => litT t ++ litTs ts

def litT : Term → List Param
  | .mk fs => litFs fs

def litFs : List Factor → List Param
  | [] => []
  | f :: fs => litF f ++ litFs fs

def litF : Factor → List Param
  | .mk _ se pr =>
    match se with
    | some e => litE e
    | none =>
      match pr with
      | some p => litP p
      | none => []

def litP : Predicate → List Param
  | .mk left op => litVOpt left ++ litOOpt op

def litOOpt : Option Operation → List Param
  | none => []
  | some o => litO o

def litO : Operation → List Param
  | .mk between inOp likeOp compare _ =>
    match compare with
    | some (.mk _ right) => litVOpt right
    | none =>
      match likeOp with
      | some (.mk _ _ pat) => litVOpt pat
      | none =>
        match between with
        | some (.mk _ _ lower _ upper) => litVOpt lower ++ litVOpt upper
        | none =>
          match inOp with
          | some (.mk _ _ values) => litVs values
          | none => []

def litVs : List Value → List Param
  | [] => []
  | v :: vs => litV v ++ litVs vs

def litV : Value → List Param
  | .mk fc field lit se =>
    match fc with
    | some (.mk _ args) => litVs args
    | none =>
      match field with
      | some _ => []
      | none =>
        match lit with
        | some l => litL l
        | none =>
          match se with
          | some e => litE e
          | none => []

def litVOpt : Option Value → List Param
  | none => []
  | some v => litV v

end

mutual

def countE : Expression → Nat
  | .mk ts => countTs ts

def countTs : List Term → Nat
  | [] => 0
  | t :: ts => countT t + countTs ts

def countT : Term → Nat
  | .mk fs => countFs fs

def countFs : List Factor → Nat
  | [] => 0
  | f :: fs => countF f + countFs fs

def countF : Factor → Nat
  | .mk _ se pr =>
    match se with
    | some e => countE e
    | none =>
      match pr with
      | some p => countP p
      | none => 0

def countP : Predicate → Nat
  | .mk left op => countVOpt left + countOOpt op

def countOOpt : Option Operation → Nat
  | none => 0
  | some o => countO o

def countO : Operation → Nat
  | .mk between inOp likeOp compare _ =>
    match compare with
    | some (.mk _ right) => countVOpt right
    | none =>
      match likeOp with
      | some (.mk _ _ pat) => countVOpt pat
      | none =>
        match between with
        | some (.mk _ _ lower _ upper) => countVOpt lower + countVOpt upper
        | none =>
          match inOp with
          | some (.mk _ _ values) => countVs values
          | none => 0

def countVs : List Value → Nat
  | [] => 0
  | v :: vs => countV v + countVs vs

def countV : Value → Nat
  | .mk fc field lit se =>
    match fc with
    | some (.mk _ args) => countVs args
    | none =>
      match field with
      | some _ => 0
      | none =>
        match lit with
        | some l => countL l
        | none =>
          match se with
          | some e => countE e
          | none => 0

def countVOpt : Option Value → Nat
  | none => 0
  | some v => countV v

end

/-- String/Number literal count of a whole filter. -/
def countFilter (f : Filter) : Nat :=
  match f.expression with
  | some e => countE e
  | none => 0

/-- One parameter is contributed per String/Number literal. -/
theorem litL_length (l : LiteralValue) : (litL l).length = countL l := by
  unfold litL countL
  rcases l with ⟨s, n, b, nl⟩
  cases nl <;> cases b <;> cases n <;> cases s <;> simp

mutual

theorem litE_length (e : Expression) : (litE e).length = countE e := by
  cases e with
  | mk ts => simpa [litE, countE] using litTs_length ts

theorem litTs_length (ts : List Term) : (litTs ts).length = countTs ts := by
  cases ts with
  | nil => simp [litTs, countTs]
  | cons t rest =>
    simp [litTs, countTs, litT_length t, litTs_length rest]

theorem litT_length (t : Term) : (litT t).length = countT t := by
  cases t with
  | mk fs => simpa [litT, countT] using litFs_length fs

theorem litFs_length (fs : List Factor) : (litFs fs).length = countFs fs := by
  cases fs with
  | nil => simp [litFs, countFs]
  | cons f rest =>
    simp [litFs, countFs, litF_length f, litFs_length rest]

theorem litF_length (f : Factor) : (litF f).length = countF f := by
  cases f with
  | mk neg se pr =>
    cases se with
    | some e => simpa [litF, countF] using litE_length e
    | none =>
      cases pr with
      | some p => simpa [litF, countF] using litP_length p
      | none => simp [litF, countF]

theorem litP_length (p : Predicate) : (litP p).length = countP p := by
  cases p with
  | mk left op =>
    simp [litP, countP, litVOpt_length left, litOOpt_length op]

theorem litOOpt_length (op : Option Operation) : (litOOpt op).length = countOOpt op := by
  cases op with
  | none => simp [litOOpt, countOOpt]
  | some o => simpa [litOOpt, countOOpt] using litO_length o

theorem litO_length (o : Operation) : (litO o).length = countO o := by
  cases o with
  | mk between inOp likeOp compare isNull =>
    cases compare with
    | some c =>
      cases c with
      | mk _ right => simpa [litO, countO] using litVOpt_length right
    | none =>
      cases likeOp with
      | some l =>
        cases l with
        | mk _ _ pat => simpa [litO, countO] using litVOpt_length pat
      | none =>
        cases between with
        | some b =>
          cases b with
          | mk _ _ lower _ upper =>
            simp [litO, countO, litVOpt_length lower, litVOpt_length upper]
        | none =>
          cases inOp with
          | some i =>
            cases i with
            | mk _ _ values => simpa [litO, countO] using litVs_length values
          | none => simp [litO, countO]

theorem litVs_length (vs : List Value) : (litVs vs).length = countVs vs := by
  cases vs with
  | nil => simp [litVs, countVs]
  | cons v rest =>
    simp [litVs, countVs, litV_length v, litVs_length rest]

theorem litV_length (v : Value) : (litV v).length = countV v := by
  cases v with
  | mk fc field lit se =>
    cases fc with
    | some f =>
      cases f with
      | mk _ args => simpa [litV, countV] using litVs_length args
    | none =>
      cases field with
      | some _ => simp [litV, countV]
      | none =>
        cases lit with
        | some l => simpa [litV, countV] using litL_length l
        | none =>
          cases se with
          | some e => simpa [litV, countV] using litE_length e
          | none => simp [litV, countV]

theorem litVOpt_length (v : Option Value) : (litVOpt v).length = countVOpt v := by
  cases v with
  | none => simp [litVOpt, countVOpt]
  | some x => simpa [litVOpt, countVOpt] using litV_length x

end

def LikeOp.pattern : LikeOp → Option Value
  | .mk _ _ p => p

def CompareOp.right : CompareOp → Option Value
  | .mk _ r => r

def BetweenOp.lower : BetweenOp → Option Value
  | .mk _ _ lo _ _ => lo

def BetweenOp.upper : BetweenOp → Option Value
  | .mk _ _ _ _ hi => hi

/-- A successful `buildLiteralValue` extends the parameter list by exactly
the literal's contribution. -/
theorem buildLiteral_params (d : Driver) (l : LiteralValue) (ps : List Param)
    (r : String × List Param) (h : buildLiteralValue d l ps = .ok r) :
    r.2 = ps ++ litL l := by
  unfold buildLiteralValue at h
  unfold litL
  rcases l with ⟨s, n, b, nl⟩
  cases nl with
  | true =>
    simp only at h ⊢
    cases h
    simp
  | false =>
    cases b with
    | some bb =>
      cases hb : bb.t <;> simp only [hb] at h <;> (cases h; simp)
    | none =>
      cases n with
      | some q =>
        simp only at h
        cases h
        simp
      | none =>
        cases s with
        | some ss =>
          simp only at h
          cases h
          simp
        | none =>
          simp only at h
          cases h

/-- A successful `buildFieldRef` never touches the parameter list. -/
theorem buildFieldRef_params (d : Driver) (v : Option Validator) (fr : FieldRef)
    (ps : List Param) (r : String × List Param) (h : buildFieldRef d v fr ps = .ok r) :
    r.2 = ps := by
  unfold buildFieldRef at h
  rcases fr with ⟨parts⟩
  cases parts with
  | nil => cases h
  | cons p rest =>
    cases v with
    | none =>
      simp only at h
      cases h
      rfl
    | some vv =>
      simp only at h
      split at h
      · cases h
      · cases h
        rfl

mutual

theorem buildE_params (d : Driver) (v : Option Validator) (e : Expression) :
    ∀ ps r, buildExpression d v e ps = Except.ok r → r.2 = ps ++ litE e := by
  cases e with
  | mk ts =>
    cases ts with
    | nil =>
      intro ps r h
      unfold buildExpression at h
      cases h
    | cons t rest =>
      cases rest with
      | nil =>
        intro ps r h
        unfold buildExpression at h
        have := buildT_params d v t ps r h
        simpa [litE, litTs] using this
      | cons t2 ts2 =>
        intro ps r h
        unfold buildExpression at h
        cases hh : buildTermList d v (t :: t2 :: ts2) ps with
        | error err => rw [hh] at h; cases h
        | ok pr =>
          rw [hh] at h
          rcases pr with ⟨parts, ps2⟩
          cases h
          have := buildTs_params d v (t :: t2 :: ts2) ps (parts, ps2) hh
          simpa [litE] using this

theorem buildTs_params (d : Driver) (v : Option Validator) (ts : List Term) :
    ∀ ps pr, buildTermList d v ts ps = Except.ok pr → pr.2 = ps ++ litTs ts := by
  cases ts with
  | nil =>
    intro ps pr h
    unfold buildTermList at h
    cases h
    simp [litTs]
  | cons t rest =>
    intro ps pr h
    unfold buildTermList at h
    cases h1 : buildTerm d v t ps with
    | error err => rw [h1] at h; cases h
    | ok r1 =>
      rw [h1] at h
      rcases r1 with ⟨s, ps1⟩
      simp only at h
      cases h2 : buildTermList d v rest ps1 with
      | error err => rw [h2] at h; cases h
      | ok r2 =>
        rw [h2] at h
        rcases r2 with ⟨ss, ps2⟩
        cases h
        have e1 := buildT_params d v t ps (s, ps1) h1
        have e2 := buildTs_params d v rest ps1 (ss, ps2) h2
        simp only at e1 e2
        simp [litTs, e2, e1, List.append_assoc]

theorem buildT_params (d : Driver) (v : Option Validator) (t : Term) :
    ∀ ps r, buildTerm d v t ps = Except.ok r → r.2 = ps ++ litT t := by
  cases t with
  | mk fs =>
    cases fs with
    | nil =>
      intro ps r h
      unfold buildTerm at h
      cases h
    | cons f rest =>
      cases rest with
      | nil =>
        intro ps r h
        unfold buildTerm at h
        have := buildF_params d v f ps r h
        simpa [litT, litFs] using this
      | cons f2 fs2 =>
        intro ps r h
        unfold buildTerm at h
        cases hh : buildFactorList d v (f :: f2 :: fs2) ps with
        | error err => rw [hh] at h; cases h
        | ok pr =>
          rw [hh] at h
          rcases pr with ⟨parts, ps2⟩
          cases h
          have := buildFs_params d v (f :: f2 :: fs2) ps (parts, ps2) hh
          simpa [litT] using this

theorem buildFs_params (d : Driver) (v : Option Validator) (fs : List Factor) :
    ∀ ps pr, buildFactorList d v fs ps = Except.ok pr → pr.2 = ps ++ litFs fs := by
  cases fs with
  | nil =>
    intro ps pr h
    unfold buildFactorList at h
    cases h
    simp [litFs]
  | cons f rest =>
    intro ps pr h
    unfold buildFactorList at h
    cases h1 : buildFactor d v f ps with
    | error err => rw [h1] at h; cases h
    | ok r1 =>
      rw [h1] at h
      rcases r1 with ⟨s, ps1⟩
      simp only at h
      cases h2 : buildFactorList d v rest ps1 with
      | error err => rw [h2] at h; cases h
      | ok r2 =>
        rw [h2] at h
        rcases r2 with ⟨ss, ps2⟩
        cases h
        have e1 := buildF_params d v f ps (s, ps1) h1
        have e2 := buildFs_params d v rest ps1 (ss, ps2) h2
        simp only at e1 e2
        simp [litFs, e2, e1, List.append_assoc]

theorem buildF_params (d : Driver) (v : Option Validator) (f : Factor) :
    ∀ ps r, buildFactor d v f ps = Except.ok r → r.2 = ps ++ litF f := by
  cases f with
  | mk neg se pr =>
    cases se with
    | some e =>
      intro ps r h
      unfold buildFactor at h
      simp only at h
      cases hh : buildExpression d v e ps with
      | error err => rw [hh] at h; cases h
      | ok r1 =>
        rw [hh] at h
        rcases r1 with ⟨s, ps1⟩
        have := buildE_params d v e ps (s, ps1) hh
        simp only at this
        cases neg <;> simp only [Bool.false_eq_true, if_false, if_true, reduceIte] at h <;>
          cases h <;> simpa [litF] using this
    | none =>
      cases pr with
      | some p =>
        intro ps r h
        unfold buildFactor at h
        simp only at h
        cases hh : buildPredicate d v p ps with
        | error err => rw [hh] at h; cases h
        | ok r1 =>
          rw [hh] at h
          rcases r1 with ⟨s, ps1⟩
          have := buildP_params d v p ps (s, ps1) hh
          simp only at this
          cases neg <;> simp only [Bool.false_eq_true, if_false, if_true, reduceIte] at h <;>
            cases h <;> simpa [litF] using this
      | none =>
        intro ps r h
        unfold buildFactor at h
        simp only at h
        cases h

theorem buildP_params (d : Driver) (v : Option Validator) (p : Predicate) :
    ∀ ps r, buildPredicate d v p ps = Except.ok r → r.2 = ps ++ litP p := by
  cases p with
  | mk left op =>
    intro ps r h
    unfold buildPredicate at h
    cases hh : buildValueOpt d v left ps with
    | error err => rw [hh] at h; cases h
    | ok r1 =>
      rw [hh] at h
      rcases r1 with ⟨lv, ps1⟩
      simp only at h
      have e1 := buildVOpt_params d v left ps (lv, ps1) hh
      have e2 := buildPOp_params d v op (lv, ps1) r h
      simp only at e1 e2
      simp [litP, e2, e1, List.append_assoc]

theorem buildPOp_params (d : Driver) (v : Option Validator) (op : Option Operation) :
    ∀ r1 r, buildPredicateOp d v op r1 = Except.ok r → r.2 = r1.2 ++ litOOpt op := by
  cases op with
  | none =>
    intro r1 r h
    unfold buildPredicateOp at h
    cases h
  | some o =>
    intro r1 r h
    unfold buildPredicateOp at h
    have := buildO_params d v o r1.1 r1.2 r h
    simpa [litOOpt] using this

theorem buildO_params (d : Driver) (v : Option Validator) (o : Operation) :
    ∀ leftVal ps r, buildOperation d v leftVal o ps = Except.ok r → r.2 = ps ++ litO o := by
  cases o with
  | mk between inOp likeOp compare isNull =>
    cases compare with
    | some c =>
      intro leftVal ps r h
      unfold buildOperation at h
      have := buildC_params d v c leftVal ps r h
      cases c with
      | mk _ right => simpa [litO, CompareOp.right] using this
    | none =>
      cases likeOp with
      | some l =>
        intro leftVal ps r h
        unfold buildOperation at h
        have := buildLike_params d v l leftVal ps r h
        cases l with
        | mk _ _ pat => simpa [litO, LikeOp.pattern] using this
      | none =>
        cases between with
        | some b =>
          intro leftVal ps r h
          unfold buildOperation at h
          have := buildB_params d v b leftVal ps r h
          cases b with
          | mk _ _ lower _ upper =>
            simpa [litO, BetweenOp.lower, BetweenOp.upper] using this
        | none =>
          cases inOp with
          | some i =>
            intro leftVal ps r h
            unfold buildOperation at h
            have := buildInOp_params d v i leftVal ps r h
            cases i with
            | mk _ _ values => simpa [litO, InOp.values] using this
          | none =>
            cases isNull with
            | some n =>
              intro leftVal ps r h
              unfold buildOperation at h
              simp only at h
              cases hn : n.neg <;> rw [hn] at h <;>
                simp only [Bool.false_eq_true, if_false, if_true, reduceIte] at h <;>
                cases h <;> simp [litO]
            | none =>
              intro leftVal ps r h
              unfold buildOperation at h
              cases h

theorem buildC_params (d : Driver) (v : Option Validator) (c : CompareOp) :
    ∀ leftVal ps r, buildCompare d v leftVal c ps = Except.ok r →
      r.2 = ps ++ litVOpt c.right := by
  cases c with
  | mk op right =>
    intro leftVal ps r h
    unfold buildCompare at h
    cases hh : buildValueOpt d v right ps with
    | error err => rw [hh] at h; cases h
    | ok r1 =>
      rw [hh] at h
      rcases r1 with ⟨rv, ps1⟩
      cases h
      have := buildVOpt_params d v right ps (rv, ps1) hh
      simpa [CompareOp.right] using this

theorem buildLike_params (d : Driver) (v : Option Validator) (l : LikeOp) :
    ∀ leftVal ps r, buildLike d v leftVal l ps = Except.ok r →
      r.2 = ps ++ litVOpt l.pattern := by
  cases l with
  | mk neg ty pat =>
    intro leftVal ps r h
    unfold buildLike at h
    cases hh : buildValueOpt d v pat ps with
    | error err => rw [hh] at h; cases h
    | ok r1 =>
      rw [hh] at h
      rcases r1 with ⟨pv, ps1⟩
      have hv := buildVOpt_params d v pat ps (pv, ps1) hh
      simp only at h hv
      cases neg <;>
        simp only [Bool.false_eq_true, if_false, if_true, reduceIte] at h <;>
        split at h <;> cases h <;> simpa [LikeOp.pattern] using hv

theorem buildB_params (d : Driver) (v : Option Validator) (b : BetweenOp) :
    ∀ leftVal ps r, buildBetween d v leftVal b ps = Except.ok r →
      r.2 = ps ++ litVOpt b.lower ++ litVOpt b.upper := by
  cases b with
  | mk neg btok lower atok upper =>
    intro leftVal ps r h
    unfold buildBetween at h
    cases h1 : buildValueOpt d v lower ps with
    | error err => rw [h1] at h; cases h
    | ok r1 =>
      rw [h1] at h
      rcases r1 with ⟨lo, ps1⟩
      simp only at h
      cases h2 : buildValueOpt d v upper ps1 with
      | error err => rw [h2] at h; cases h
      | ok r2 =>
        rw [h2] at h
        rcases r2 with ⟨hi, ps2⟩
        cases h
        have e1 := buildVOpt_params d v lower ps (lo, ps1) h1
        have e2 := buildVOpt_params d v upper ps1 (hi, ps2) h2
        simp only at e1 e2
        simp [BetweenOp.lower, BetweenOp.upper, e2, e1, List.append_assoc]

theorem buildInOp_params (d : Driver) (v : Option Validator) (i : InOp) :
    ∀ leftVal ps r, buildIn d v leftVal i ps = Except.ok r →
      r.2 = ps ++ litVs i.values := by
  cases i with
  | mk neg itok values =>
    cases values with
    | nil =>
      intro leftVal ps r h
      unfold buildIn at h
      cases h
    | cons x xs =>
      intro leftVal ps r h
      unfold buildIn at h
      simp only at h
      cases hh : buildValueList d v (x :: xs) ps with
      | error err => rw [hh] at h; cases h
      | ok r1 =>
        rw [hh] at h
        rcases r1 with ⟨items, ps1⟩
        cases h
        have := buildVs_params d v (x :: xs) ps (items, ps1) hh
        simpa [InOp.values] using this

theorem buildVs_params (d : Driver) (v : Option Validator) (vs : List Value) :
    ∀ ps pr, buildValueList d v vs ps = Except.ok pr → pr.2 = ps ++ litVs vs := by
  cases vs with
  | nil =>
    intro ps pr h
    unfold buildValueList at h
    cases h
    simp [litVs]
  | cons x rest =>
    intro ps pr h
    unfold buildValueList at h
    cases h1 : buildValue d v x ps with
    | error err => rw [h1] at h; cases h
    | ok r1 =>
      rw [h1] at h
      rcases r1 with ⟨s, ps1⟩
      simp only at h
      cases h2 : buildValueList d v rest ps1 with
      | error err => rw [h2] at h; cases h
      | ok r2 =>
        rw [h2] at h
        rcases r2 with ⟨ss, ps2⟩
        cases h
        have e1 := buildV_params d v x ps (s, ps1) h1
        have e2 := buildVs_params d v rest ps1 (ss, ps2) h2
        simp only at e1 e2
        simp [litVs, e2, e1, List.append_assoc]

theorem buildV_params (d : Driver) (v : Option Validator) (x : Value) :
    ∀ ps r, buildValue d v x ps = Except.ok r → r.2 = ps ++ litV x := by
  cases x with
  | mk fc field lit se =>
    cases fc with
    | some f =>
      intro ps r h
      unfold buildValue at h
      have := buildFC_params d v f ps r h
      cases f with
      | mk name args => simpa [litV, FunctionCall.args] using this
    | none =>
      cases field with
      | some fr =>
        intro ps r h
        unfold buildValue at h
        have := buildFieldRef_params d v fr ps r h
        simpa [litV] using this
      | none =>
        cases lit with
        | some l =>
          intro ps r h
          unfold buildValue at h
          have := buildLiteral_params d l ps r h
          simpa [litV] using this
        | none =>
          cases se with
          | some e =>
            intro ps r h
            unfold buildValue at h
            have := buildE_params d v e ps r h
            simpa [litV] using this
          | none =>
            intro ps r h
            unfold buildValue at h
            cases h

theorem buildVOpt_params (d : Driver) (v : Option Validator) (val : Option Value) :
    ∀ ps r, buildValueOpt d v val ps = Except.ok r → r.2 = ps ++ litVOpt val := by
  cases val with
  | none =>
    intro ps r h
    unfold buildValueOpt at h
    cases h
  | some x =>
    intro ps r h
    unfold buildValueOpt at h
    have := buildV_params d v x ps r h
    simpa [litVOpt] using this

theorem buildFC_params (d : Driver) (v : Option Validator) (f : FunctionCall) :
    ∀ ps r, buildFunctionCall d v f ps = Except.ok r → r.2 = ps ++ litVs f.args := by
  cases f with
  | mk name args =>
    intro ps r h
    unfold buildFunctionCall at h
    simp only at h
    split at h
    · cases h
    · split at h
      · cases h
      · cases args with
        | nil =>
          cases h
          simp [FunctionCall.args, litVs]
        | cons a rest =>
          cases hh : buildValueList d v (a :: rest) ps with
          | error err => rw [hh] at h; cases h
          | ok r1 =>
            rw [hh] at h
            rcases r1 with ⟨argStrs, ps1⟩
            cases h
            have := buildVs_params d v (a :: rest) ps (argStrs, ps1) hh
            simpa [FunctionCall.args] using this

end

/-! ## Claim-side measure: presence of field references / function calls

`hasFFE e` holds when the SQL builder's compilation of `e` reaches at least
one field reference or function call (following the builder's dispatch
priorities, which coincide with plain containment on parsed ASTs where
exactly one variant of each tagged union is populated). -/

mutual

def hasFFE : Expression → Bool
  | .mk ts => hasFFTs ts

def hasFFTs : List Term → Bool
  | [] => false
  | t :: ts => hasFFT t || hasFFTs ts

def hasFFT : Term → Bool
  | .mk fs => hasFFFs fs

def hasFFFs : List Factor → Bool
  | [] => false
  | f :: fs => hasFFF f || hasFFFs fs

def hasFFF : Factor → Bool
  | .mk _ se pr =>
    match se with
    | some e => hasFFE e
    | none =>
      match pr with
      | some p => hasFFP p
      | none => false

def hasFFP : Predicate → Bool
  | .mk left op => hasFFVOpt left || hasFFOOpt op

def hasFFOOpt : Option Operation → Bool
  | none => false
  | some o => hasFFO o

def hasFFO : Operation → Bool
  | .mk between inOp likeOp compare _ =>
    match compare with
    | some (.mk _ right) => hasFFVOpt right
    | none =>
      match likeOp with
      | some (.mk _ _ pat) => hasFFVOpt pat
      | none =>
        match between with
        | some (.mk _ _ lower _ upper) => hasFFVOpt lower || hasFFVOpt upper
        | none =>
          match inOp with
          | some (.mk _ _ values) => hasFFVs values
          | none => false

def hasFFVs : List Value → Bool
  | [] => false
  | v :: vs => hasFFV v || hasFFVs vs

def hasFFV : Value → Bool
  | .mk fc field lit se =>
    match fc with
    | some _ => true
    | none =>
      match field with
      | some _ => true
      | none =>
        match lit with
        | some _ => false
        | none =>
          match se with
          | some e => hasFFE e
          | none => false

def hasFFVOpt : Option Value → Bool
  | none => false
  | some v => hasFFV v

end

/-- Field/function presence in a whole filter. -/
def hasFFFilter (f : Filter) : Bool :=
  match f.expression with
  | some e => hasFFE e
  | none => false

/-- The fresh validator denies every field. -/
theorem newValidator_denies_fields (s : String) : IsFieldAllowed NewValidator s = false := by
  rfl

/-- The fresh validator denies every function. -/
theorem newValidator_denies_functions (s : String) :
    IsFunctionAllowed NewValidator s = false := by
  rfl

/-- Under the fresh validator, `buildFieldRef` on a non-empty part list
always fails with the field-not-allowed error carrying the dotted name. -/
theorem buildFieldRef_denied (d : Driver) (parts : List String) (hne : parts ≠ [])
    (ps : List Param) :
    buildFieldRef d (some NewValidator) ⟨parts⟩ ps =
      .error (.fieldNotAllowed (goJoin parts ".")) := by
  unfold buildFieldRef
  cases parts with
  | nil => exact absurd rfl hne
  | cons p rest => simp [IsFieldAllowed, NewValidator]

/-- Under the fresh validator, `buildFieldRef` never succeeds. -/
theorem buildFieldRef_denied_ok (d : Driver) (fr : FieldRef) (ps : List Param)
    (r : String × List Param) :
    buildFieldRef d (some NewValidator) fr ps ≠ .ok r := by
  intro h
  rcases fr with ⟨parts⟩
  cases parts with
  | nil => unfold buildFieldRef at h; cases h
  | cons p rest => rw [buildFieldRef_denied d (p :: rest) (by simp) ps] at h; cases h

/-- Under the fresh validator, `buildFunctionCall` always fails with the
function-not-allowed error carrying the function name. -/
theorem buildFunctionCall_denied (d : Driver) (f : FunctionCall) (ps : List Param) :
    buildFunctionCall d (some NewValidator) f ps = .error (.functionNotAllowed f.name) := by
  rcases f with ⟨name, args⟩
  unfold buildFunctionCall
  simp [IsFunctionAllowed, NewValidator, FunctionCall.name]

mutual

theorem noFF_E (d : Driver) (e : Expression) :
    ∀ ps r, buildExpression d (some NewValidator) e ps = Except.ok r →
      hasFFE e = false := by
  cases e with
  | mk ts =>
    cases ts with
    | nil =>
      intro ps r h
      unfold buildExpression at h
      cases h
    | cons t rest =>
      cases rest with
      | nil =>
        intro ps r h
        unfold buildExpression at h
        have := noFF_T d t ps r h
        simp [hasFFE, hasFFTs, this]
      | cons t2 ts2 =>
        intro ps r h
        unfold buildExpression at h
        cases hh : buildTermList d (some NewValidator) (t :: t2 :: ts2) ps with
        | error err => rw [hh] at h; cases h
        | ok pr =>
          have := noFF_Ts d (t :: t2 :: ts2) ps pr hh
          simpa [hasFFE] using this

theorem noFF_Ts (d : Driver) (ts : List Term) :
    ∀ ps pr, buildTermList d (some NewValidator) ts ps = Except.ok pr →
      hasFFTs ts = false := by
  cases ts with
  | nil =>
    intro ps pr h
    simp [hasFFTs]
  | cons t rest =>
    intro ps pr h
    unfold buildTermList at h
    cases h1 : buildTerm d (some NewValidator) t ps with
    | error err => rw [h1] at h; cases h
    | ok r1 =>
      rw [h1] at h
      rcases r1 with ⟨s, ps1⟩
      simp only at h
      cases h2 : buildTermList d (some NewValidator) rest ps1 with
      | error err => rw [h2] at h; cases h
      | ok r2 =>
        have e1 := noFF_T d t ps (s, ps1) h1
        have e2 := noFF_Ts d rest ps1 r2 h2
        simp [hasFFTs, e1, e2]

theorem noFF_T (d : Driver) (t : Term) :
    ∀ ps r, buildTerm d (some NewValidator) t ps = Except.ok r → hasFFT t = false := by
  cases t with
  | mk fs =>
    cases fs with
    | nil =>
      intro ps r h
      unfold buildTerm at h
      cases h
    | cons f rest =>
      cases rest with
      | nil =>
        intro ps r h
        unfold buildTerm at h
        have := noFF_F d f ps r h
        simp [hasFFT, hasFFFs, this]
      | cons f2 fs2 =>
        intro ps r h
        unfold buildTerm at h
        cases hh : buildFactorList d (some NewValidator) (f :: f2 :: fs2) ps with
        | error err => rw [hh] at h; cases h
        | ok pr =>
          have := noFF_Fs d (f :: f2 :: fs2) ps pr hh
          simpa [hasFFT] using this

theorem noFF_Fs (d : Driver) (fs : List Factor) :
    ∀ ps pr, buildFactorList d (some NewValidator) fs ps = Except.ok pr →
      hasFFFs fs = false := by
  cases fs with
  | nil =>
    intro ps pr h
    simp [hasFFFs]
  | cons f rest =>
    intro ps pr h
    unfold buildFactorList at h
    cases h1 : buildFactor d (some NewValidator) f ps with
    | error err => rw [h1] at h; cases h
    | ok r1 =>
      rw [h1] at h
      rcases r1 with ⟨s, ps1⟩
      simp only at h
      cases h2 : buildFactorList d (some NewValidator) rest ps1 with
      | error err => rw [h2] at h; cases h
      | ok r2 =>
        have e1 := noFF_F d f ps (s, ps1) h1
        have e2 := noFF_Fs d rest ps1 r2 h2
        simp [hasFFFs, e1, e2]

theorem noFF_F (d : Driver) (f : Factor) :
    ∀ ps r, buildFactor d (some NewValidator) f ps = Except.ok r → hasFFF f = false := by
  cases f with
  | mk neg se pr =>
    cases se with
    | some e =>
      intro ps r h
      unfold buildFactor at h
      simp only at h
      cases hh : buildExpression d (some NewValidator) e ps with
      | error err => rw [hh] at h; cases h
      | ok r1 =>
        have := noFF_E d e ps r1 hh
        simpa [hasFFF] using this
    | none =>
      cases pr with
      | some p =>
        intro ps r h
        unfold buildFactor at h
        simp only at h
        cases hh : buildPredicate d (some NewValidator) p ps with
        | error err => rw [hh] at h; cases h
        | ok r1 =>
          have := noFF_P d p ps r1 hh
          simpa [hasFFF] using this
      | none =>
        intro ps r h
        unfold buildFactor at h
        simp only at h
        cases h

theorem noFF_P (d : Driver) (p : Predicate) :
    ∀ ps r, buildPredicate d (some NewValidator) p ps = Except.ok r →
      hasFFP p = false := by
  cases p with
  | mk left op =>
    intro ps r h
    unfold buildPredicate at h
    cases hh : buildValueOpt d (some NewValidator) left ps with
    | error err => rw [hh] at h; cases h
    | ok r1 =>
      rw [hh] at h
      simp only at h
      have e1 := noFF_VOpt d left ps r1 hh
      have e2 := noFF_POp d op r1 r h
      simp [hasFFP, e1, e2]

theorem noFF_POp (d : Driver) (op : Option Operation) :
    ∀ r1 r, buildPredicateOp d (some NewValidator) op r1 = Except.ok r →
      hasFFOOpt op = false := by
  cases op with
  | none =>
    intro r1 r h
    unfold buildPredicateOp at h
    cases h
  | some o =>
    intro r1 r h
    unfold buildPredicateOp at h
    have := noFF_O d o r1.1 r1.2 r h
    simpa [hasFFOOpt] using this

theorem noFF_O (d : Driver) (o : Operation) :
    ∀ leftVal ps r, buildOperation d (some NewValidator) leftVal o ps = Except.ok r →
      hasFFO o = false := by
  cases o with
  | mk between inOp likeOp compare isNull =>
    cases compare with
    | some c =>
      intro leftVal ps r h
      unfold buildOperation at h
      cases c with
      | mk cop right =>
        unfold buildCompare at h
        cases hh : buildValueOpt d (some NewValidator) right ps with
        | error err => rw [hh] at h; cases h
        | ok r1 =>
          have := noFF_VOpt d right ps r1 hh
          simpa [hasFFO] using this
    | none =>
      cases likeOp with
      | some l =>
        intro leftVal ps r h
        unfold buildOperation at h
        cases l with
        | mk neg ty pat =>
          unfold buildLike at h
          cases hh : buildValueOpt d (some NewValidator) pat ps with
          | error err => rw [hh] at h; cases h
          | ok r1 =>
            have := noFF_VOpt d pat ps r1 hh
            simpa [hasFFO] using this
      | none =>
        cases between with
        | some b =>
          intro leftVal ps r h
          unfold buildOperation at h
          cases b with
          | mk neg btok lower atok upper =>
            unfold buildBetween at h
            cases h1 : buildValueOpt d (some NewValidator) lower ps with
            | error err => rw [h1] at h; cases h
            | ok r1 =>
              rw [h1] at h
              rcases r1 with ⟨lo, ps1⟩
              simp only at h
              cases h2 : buildValueOpt d (some NewValidator) upper ps1 with
              | error err => rw [h2] at h; cases h
              | ok r2 =>
                have e1 := noFF_VOpt d lower ps (lo, ps1) h1
                have e2 := noFF_VOpt d upper ps1 r2 h2
                simp [hasFFO, e1, e2]
        | none =>
          cases inOp with
          | some i =>
            intro leftVal ps r h
            unfold buildOperation at h
            cases i with
            | mk neg itok values =>
              unfold buildIn at h
              cases values with
              | nil => cases h
              | cons x xs =>
                simp only at h
                cases hh : buildValueList d (some NewValidator) (x :: xs) ps with
                | error err => rw [hh] at h; cases h
                | ok r1 =>
                  have := noFF_Vs d (x :: xs) ps r1 hh
                  simpa [hasFFO] using this
          | none =>
            intro leftVal ps r h
            simp [hasFFO]

theorem noFF_Vs (d : Driver) (vs : List Value) :
    ∀ ps pr, buildValueList d (some NewValidator) vs ps = Except.ok pr →
      hasFFVs vs = false := by
  cases vs with
  | nil =>
    intro ps pr h
    simp [hasFFVs]
  | cons x rest =>
    intro ps pr h
    unfold buildValueList at h
    cases h1 : buildValue d (some NewValidator) x ps with
    | error err => rw [h1] at h; cases h
    | ok r1 =>
      rw [h1] at h
      rcases r1 with ⟨s, ps1⟩
      simp only at h
      cases h2 : buildValueList d (some NewValidator) rest ps1 with
      | error err => rw [h2] at h; cases h
      | ok r2 =>
        have e1 := noFF_V d x ps (s, ps1) h1
        have e2 := noFF_Vs d rest ps1 r2 h2
        simp [hasFFVs, e1, e2]

theorem noFF_V (d : Driver) (x : Value) :
    ∀ ps r, buildValue d (some NewValidator) x ps = Except.ok r → hasFFV x = false := by
  cases x with
  | mk fc field lit se =>
    cases fc with
    | some f =>
      intro ps r h
      unfold buildValue at h
      simp only at h
      rw [buildFunctionCall_denied d f ps] at h
      cases h
    | none =>
      cases field with
      | some fr =>
        intro ps r h
        unfold buildValue at h
        simp only at h
        exact absurd h (buildFieldRef_denied_ok d fr ps r)
      | none =>
        cases lit with
        | some l =>
          intro ps r h
          simp [hasFFV]
        | none =>
          cases se with
          | some e =>
            intro ps r h
            unfold buildValue at h
            have := noFF_E d e ps r h
            simpa [hasFFV] using this
          | none =>
            intro ps r h
            unfold buildValue at h
            cases h

theorem noFF_VOpt (d : Driver) (val : Option Value) :
    ∀ ps r, buildValueOpt d (some NewValidator) val ps = Except.ok r →
      hasFFVOpt val = false := by
  cases val with
  | none =>
    intro ps r h
    simp [hasFFVOpt]
  | some x =>
    intro ps r h
    unfold buildValueOpt at h
    have := noFF_V d x ps r h
    simpa [hasFFVOpt] using this

end

/-! ## Well-formed ASTs

`wfE` captures the invariants the grammar guarantees for parsed filters:
non-empty OR/AND/IN lists, exactly one populated variant reachable in each
tagged union, present operand pointers, and `LIKE`/`ILIKE` like-operator
tokens.  Under these invariants the only builder errors possible with the
fresh validator are the two not-allowed errors. -/

/-- One populated literal variant. -/
def wfL (l : LiteralValue) : Bool :=
  l.null || l.boolean.isSome || l.num.isSome || l.str.isSome

mutual

def wfE : Expression → Bool
  | .mk ts => !ts.isEmpty && wfTs ts

def wfTs : List Term → Bool
  | [] => true
  | t :: ts => wfT t && wfTs ts

def wfT : Term → Bool
  | .mk fs => !fs.isEmpty && wfFs fs

def wfFs : List Factor → Bool
  | [] => true
  | f :: fs => wfF f && wfFs fs

def wfF : Factor → Bool
  | .mk _ se pr =>
    match se with
    | some e => wfE e
    | none =>
      match pr with
      | some p => wfP p
      | none => false

def wfP : Predicate → Bool
  | .mk left op =>
    (match left with
     | some v => wfV v
     | none => false) &&
    (match op with
     | some o => wfO o
     | none => false)

def wfO : Operation → Bool
  | .mk between inOp likeOp compare isNull =>
    match compare with
    | some (.mk _ right) =>
      (match right with
       | some v => wfV v
       | none => false)
    | none =>
      match likeOp with
      | some (.mk _ ty pat) =>
        (goUpper ty.operator = "LIKE" || goUpper ty.operator = "ILIKE") &&
        (match pat with
         | some v => wfV v
         | none => false)
      | none =>
        match between with
        | some (.mk _ _ lower _ upper) =>
          (match lower with
           | some v => wfV v
           | none => false) &&
          (match upper with
           | some v => wfV v
           | none => false)
        | none =>
          match inOp with
          | some (.mk _ _ values) => !values.isEmpty && wfVs values
          | none => isNull.isSome

def wfVs : List Value → Bool
  | [] => true
  | v :: vs => wfV v && wfVs vs

def wfV : Value → Bool
  | .mk fc field lit se =>
    match fc with
    | some (.mk _ args) => wfVs args
    | none =>
      match field with
      | some fr => !fr.parts.isEmpty
      | none =>
        match lit with
        | some l => wfL l
        | none =>
          match se with
          | some e => wfE e
          | none => false

end

/-- Well-formedness of a whole filter (present root expression). -/
def wfFilter (f : Filter) : Bool :=
  match f.expression with
  | some e => wfE e
  | none => false

/-- The two runtime allow-list errors. -/
def isNotAllowedErr : BuildError → Bool
  | .fieldNotAllowed _ => true
  | .functionNotAllowed _ => true
  | _ => false

/-- The driver supports all four (negated) like operators — true of every
registered driver. -/
def likeOpsSupported (d : Driver) : Bool :=
  (d.TranslateOperator "LIKE").2 && (d.TranslateOperator "NOT LIKE").2 &&
  (d.TranslateOperator "ILIKE").2 && (d.TranslateOperator "NOT ILIKE").2

/-- Shorthand for the ok-or-not-allowed disjunction. -/
def okOrNA (x : BRes) : Prop :=
  (∃ r, x = .ok r) ∨ (∃ err, x = .error err ∧ isNotAllowedErr err = true)

theorem okOrNA_of_ok {x : BRes} (r : String × List Param) (h : x = .ok r) : okOrNA x :=
  Or.inl ⟨r, h⟩

/-- A well-formed literal always builds successfully. -/
theorem buildLiteral_ok (d : Driver) (l : LiteralValue) (ps : List Param)
    (hw : wfL l = true) : ∃ r, buildLiteralValue d l ps = .ok r := by
  rcases l with ⟨s, n, b, nl⟩
  cases nl with
  | true => exact ⟨("NULL", ps), by simp [buildLiteralValue]⟩
  | false =>
    cases b with
    | some bb =>
      cases hb : bb.t with
      | true => exact ⟨("TRUE", ps), by simp [buildLiteralValue, hb]⟩
      | false => exact ⟨("FALSE", ps), by simp [buildLiteralValue, hb]⟩
    | none =>
      cases n with
      | some q =>
        exact ⟨(d.Placeholder (ps.length + 1), ps ++ [.num q]), by simp [buildLiteralValue]⟩
      | none =>
        cases s with
        | some ss =>
          exact ⟨(d.Placeholder (ps.length + 1), ps ++ [.str (stripLiteralQuotes ss)]),
            by simp [buildLiteralValue]⟩
        | none => simp [wfL] at hw

mutual

theorem okNA_E (d : Driver) (hl : likeOpsSupported d = true) (e : Expression) :
    ∀ ps, wfE e = true → okOrNA (buildExpression d (some NewValidator) e ps) := by
  cases e with
  | mk ts =>
    cases ts with
    | nil =>
      intro ps hw
      simp [wfE, List.isEmpty] at hw
    | cons t rest =>
      cases rest with
      | nil =>
        intro ps hw
        have hw' : wfT t = true := by
          simp [wfE, wfTs] at hw
          exact hw
        have := okNA_T d hl t ps hw'
        unfold buildExpression
        exact this
      | cons t2 ts2 =>
        intro ps hw
        have hw' : wfTs (t :: t2 :: ts2) = true := by
          simp [wfE] at hw
          simp [wfTs]
          simpa [wfTs] using hw
        have := okNA_Ts d hl (t :: t2 :: ts2) ps hw'
        unfold buildExpression
        rcases this with ⟨r, hr⟩ | ⟨err, he, hna⟩
        · rw [hr]
          exact Or.inl ⟨_, rfl⟩
        · rw [he]
          exact Or.inr ⟨err, rfl, hna⟩

theorem okNA_Ts (d : Driver) (hl : likeOpsSupported d = true) (ts : List Term) :
    ∀ ps, wfTs ts = true →
      (∃ pr, buildTermList d (some NewValidator) ts ps = .ok pr) ∨
      (∃ err, buildTermList d (some NewValidator) ts ps = .error err ∧
        isNotAllowedErr err = true) := by
  cases ts with
  | nil =>
    intro ps hw
    exact Or.inl ⟨([], ps), rfl⟩
  | cons t rest =>
    intro ps hw
    have hw1 : wfT t = true := by
      simp [wfTs] at hw
      exact hw.1
    have hw2 : wfTs rest = true := by
      simp [wfTs] at hw
      exact hw.2
    have h1 := okNA_T d hl t ps hw1
    unfold buildTermList
    rcases h1 with ⟨⟨s, ps1⟩, hr⟩ | ⟨err, he, hna⟩
    · rw [hr]
      have h2 := okNA_Ts d hl rest ps1 hw2
      simp only
      rcases h2 with ⟨⟨ss, ps2⟩, hr2⟩ | ⟨err2, he2, hna2⟩
      · rw [hr2]
        exact Or.inl ⟨_, rfl⟩
      · rw [he2]
        exact Or.inr ⟨err2, rfl, hna2⟩
    · rw [he]
      exact Or.inr ⟨err, rfl, hna⟩

theorem okNA_T (d : Driver) (hl : likeOpsSupported d = true) (t : Term) :
    ∀ ps, wfT t = true → okOrNA (buildTerm d (some NewValidator) t ps) := by
  cases t with
  | mk fs =>
    cases fs with
    | nil =>
      intro ps hw
      simp [wfT, List.isEmpty] at hw
    | cons f rest =>
      cases rest with
      | nil =>
        intro ps hw
        have hw' : wfF f = true := by
          simp [wfT, wfFs] at hw
          exact hw
        have := okNA_F d hl f ps hw'
        unfold buildTerm
        exact this
      | cons f2 fs2 =>
        intro ps hw
        have hw' : wfFs (f :: f2 :: fs2) = true := by
          simp [wfT] at hw
          simp [wfFs]
          simpa [wfFs] using hw
        have := okNA_Fs d hl (f :: f2 :: fs2) ps hw'
        unfold buildTerm
        rcases this with ⟨r, hr⟩ | ⟨err, he, hna⟩
        · rw [hr]
          exact Or.inl ⟨_, rfl⟩
        · rw [he]
          exact Or.inr ⟨err, rfl, hna⟩

theorem okNA_Fs (d : Driver) (hl : likeOpsSupported d = true) (fs : List Factor) :
    ∀ ps, wfFs fs = true →
      (∃ pr, buildFactorList d (some NewValidator) fs ps = .ok pr) ∨
      (∃ err, buildFactorList d (some NewValidator) fs ps = .error err ∧
        isNotAllowedErr err = true) := by
  cases fs with
  | nil =>
    intro ps hw
    exact Or.inl ⟨([], ps), rfl⟩
  | cons f rest =>
    intro ps hw
    have hw1 : wfF f = true := by
      simp [wfFs] at hw
      exact hw.1
    have hw2 : wfFs rest = true := by
      simp [wfFs] at hw
      exact hw.2
    have h1 := okNA_F d hl f ps hw1
    unfold buildFactorList
    rcases h1 with ⟨⟨s, ps1⟩, hr⟩ | ⟨err, he, hna⟩
    · rw [hr]
      have h2 := okNA_Fs d hl rest ps1 hw2
      simp only
      rcases h2 with ⟨⟨ss, ps2⟩, hr2⟩ | ⟨err2, he2, hna2⟩
      · rw [hr2]
        exact Or.inl ⟨_, rfl⟩
      · rw [he2]
        exact Or.inr ⟨err2, rfl, hna2⟩
    · rw [he]
      exact Or.inr ⟨err, rfl, hna⟩

theorem okNA_F (d : Driver) (hl : likeOpsSupported d = true) (f : Factor) :
    ∀ ps, wfF f = true → okOrNA (buildFactor d (some NewValidator) f ps) := by
  cases f with
  | mk neg se pr =>
    cases se with
    | some e =>
      intro ps hw
      have hw' : wfE e = true := by simpa [wfF] using hw
      have := okNA_E d hl e ps hw'
      unfold buildFactor
      simp only
      rcases this with ⟨⟨s, ps1⟩, hr⟩ | ⟨err, he, hna⟩
      · rw [hr]
        cases neg <;> exact Or.inl ⟨_, rfl⟩
      · rw [he]
        exact Or.inr ⟨err, rfl, hna⟩
    | none =>
      cases pr with
      | some p =>
        intro ps hw
        have hw' : wfP p = true := by simpa [wfF] using hw
        have := okNA_P d hl p ps hw'
        unfold buildFactor
        simp only
        rcases this with ⟨⟨s, ps1⟩, hr⟩ | ⟨err, he, hna⟩
        · rw [hr]
          cases neg <;> exact Or.inl ⟨_, rfl⟩
        · rw [he]
          exact Or.inr ⟨err, rfl, hna⟩
      | none =>
        intro ps hw
        simp [wfF] at hw

theorem okNA_P (d : Driver) (hl : likeOpsSupported d = true) (p : Predicate) :
    ∀ ps, wfP p = true → okOrNA (buildPredicate d (some NewValidator) p ps) := by
  cases p with
  | mk left op =>
    cases left with
    | none =>
      intro ps hw
      simp [wfP] at hw
    | some lv =>
      cases op with
      | none =>
        intro ps hw
        simp [wfP] at hw
      | some o =>
        intro ps hw
        have hw' : wfV lv = true ∧ wfO o = true := by simpa [wfP] using hw
        unfold buildPredicate
        have h1 := okNA_V d hl lv ps hw'.1
        unfold buildValueOpt
        rcases h1 with ⟨⟨s, ps1⟩, hr⟩ | ⟨err, he, hna⟩
        · rw [hr]
          simp only
          have h2 := okNA_O d hl o s ps1 hw'.2
          unfold buildPredicateOp
          exact h2
        · rw [he]
          exact Or.inr ⟨err, rfl, hna⟩

theorem okNA_O (d : Driver) (hl : likeOpsSupported d = true) (o : Operation) :
    ∀ leftVal ps, wfO o = true →
      okOrNA (buildOperation d (some NewValidator) leftVal o ps) := by
  cases o with
  | mk between inOp likeOp compare isNull =>
    cases compare with
    | some c =>
      cases c with
      | mk cop right =>
        cases right with
        | none =>
          intro leftVal ps hw
          simp [wfO] at hw
        | some rv =>
          intro leftVal ps hw
          have hw' : wfV rv = true := by simpa [wfO] using hw
          unfold buildOperation buildCompare
          have h1 := okNA_V d hl rv ps hw'
          unfold buildValueOpt
          rcases h1 with ⟨⟨s, ps1⟩, hr⟩ | ⟨err, he, hna⟩
          · rw [hr]
            exact Or.inl ⟨_, rfl⟩
          · rw [he]
            exact Or.inr ⟨err, rfl, hna⟩
    | none =>
      cases likeOp with
      | some l =>
        cases l with
        | mk neg ty pat =>
          cases pat with
          | none =>
            intro leftVal ps hw
            simp [wfO] at hw
          | some pv =>
            intro leftVal ps hw
            have hw' : (goUpper ty.operator = "LIKE" ∨ goUpper ty.operator = "ILIKE") ∧
                wfV pv = true := by simpa [wfO] using hw
            have hlc : (((d.TranslateOperator "LIKE").2 = true ∧
                (d.TranslateOperator "NOT LIKE").2 = true) ∧
                (d.TranslateOperator "ILIKE").2 = true) ∧
                (d.TranslateOperator "NOT ILIKE").2 = true := by
              simpa [likeOpsSupported, Bool.and_eq_true] using hl
            unfold buildOperation buildLike
            have h1 := okNA_V d hl pv ps hw'.2
            unfold buildValueOpt
            rcases h1 with ⟨⟨s, ps1⟩, hr⟩ | ⟨err, he, hna⟩
            · rw [hr]
              simp only
              have hsup : (d.TranslateOperator
                  (if neg then "NOT " ++ goUpper ty.operator
                   else goUpper ty.operator)).2 = true := by
                rcases hw'.1 with h | h <;> cases neg <;>
                  simp only [Bool.false_eq_true, if_false, if_true, reduceIte] <;>
                  rw [h]
                · exact hlc.1.1.1
                · exact hlc.1.1.2
                · exact hlc.1.2
                · exact hlc.2
              exact Or.inl ⟨_, by rw [if_neg (by simp [hsup])]⟩
            · rw [he]
              exact Or.inr ⟨err, rfl, hna⟩
      | none =>
        cases between with
        | some b =>
          cases b with
          | mk negb btok lower atok upper =>
            cases lower with
            | none =>
              intro leftVal ps hw
              simp [wfO] at hw
            | some lv =>
              cases upper with
              | none =>
                intro leftVal ps hw
                simp [wfO] at hw
              | some uv =>
                intro leftVal ps hw
                have hw' : wfV lv = true ∧ wfV uv = true := by simpa [wfO] using hw
                unfold buildOperation buildBetween
                have h1 := okNA_V d hl lv ps hw'.1
                unfold buildValueOpt
                rcases h1 with ⟨⟨lo, ps1⟩, hr⟩ | ⟨err, he, hna⟩
                · rw [hr]
                  simp only
                  have h2 := okNA_V d hl uv ps1 hw'.2
                  rcases h2 with ⟨⟨hi, ps2⟩, hr2⟩ | ⟨err2, he2, hna2⟩
                  · rw [hr2]
                    exact Or.inl ⟨_, rfl⟩
                  · rw [he2]
                    exact Or.inr ⟨err2, rfl, hna2⟩
                · rw [he]
                  exact Or.inr ⟨err, rfl, hna⟩
        | none =>
          cases inOp with
          | some i =>
            cases i with
            | mk negi itok values =>
              cases values with
              | nil =>
                intro leftVal ps hw
                simp [wfO, List.isEmpty] at hw
              | cons x xs =>
                intro leftVal ps hw
                have hw' : wfVs (x :: xs) = true := by
                  have h' : wfV x = true ∧ wfVs xs = true := by simpa [wfO, wfVs] using hw
                  simp [wfVs, h'.1, h'.2]
                unfold buildOperation buildIn
                have h1 := okNA_VsList d hl (x :: xs) ps hw'
                simp only
                rcases h1 with ⟨⟨items, ps1⟩, hr⟩ | ⟨err, he, hna⟩
                · rw [hr]
                  exact Or.inl ⟨_, rfl⟩
                · rw [he]
                  exact Or.inr ⟨err, rfl, hna⟩
          | none =>
            cases isNull with
            | some n =>
              intro leftVal ps hw
              unfold buildOperation
              simp only
              cases hn : n.neg
              · exact Or.inl ⟨_, by rw [if_neg (by simp)]⟩
              · exact Or.inl ⟨_, by rw [if_pos rfl]⟩
            | none =>
              intro leftVal ps hw
              simp [wfO] at hw

theorem okNA_VsList (d : Driver) (hl : likeOpsSupported d = true) (vs : List Value) :
    ∀ ps, wfVs vs = true →
      (∃ pr, buildValueList d (some NewValidator) vs ps = .ok pr) ∨
      (∃ err, buildValueList d (some NewValidator) vs ps = .error err ∧
        isNotAllowedErr err = true) := by
  cases vs with
  | nil =>
    intro ps hw
    exact Or.inl ⟨([], ps), rfl⟩
  | cons x rest =>
    intro ps hw
    have hw1 : wfV x = true := by
      simp [wfVs] at hw
      exact hw.1
    have hw2 : wfVs rest = true := by
      simp [wfVs] at hw
      exact hw.2
    have h1 := okNA_V d hl x ps hw1
    unfold buildValueList
    rcases h1 with ⟨⟨s, ps1⟩, hr⟩ | ⟨err, he, hna⟩
    · rw [hr]
      have h2 := okNA_VsList d hl rest ps1 hw2
      simp only
      rcases h2 with ⟨⟨ss, ps2⟩, hr2⟩ | ⟨err2, he2, hna2⟩
      · rw [hr2]
        exact Or.inl ⟨_, rfl⟩
      · rw [he2]
        exact Or.inr ⟨err2, rfl, hna2⟩
    · rw [he]
      exact Or.inr ⟨err, rfl, hna⟩

theorem okNA_V (d : Driver) (hl : likeOpsSupported d = true) (x : Value) :
    ∀ ps, wfV x = true → okOrNA (buildValue d (some NewValidator) x ps) := by
  cases x with
  | mk fc field lit se =>
    cases fc with
    | some f =>
      intro ps hw
      unfold buildValue
      simp only
      rw [buildFunctionCall_denied d f ps]
      exact Or.inr ⟨_, rfl, rfl⟩
    | none =>
      cases field with
      | some fr =>
        intro ps hw
        unfold buildValue
        simp only
        rcases fr with ⟨parts⟩
        cases parts with
        | nil => simp [wfV, List.isEmpty] at hw
        | cons pp rest =>
          rw [buildFieldRef_denied d (pp :: rest) (by simp) ps]
          exact Or.inr ⟨_, rfl, rfl⟩
      | none =>
        cases lit with
        | some l =>
          intro ps hw
          have hw' : wfL l = true := by simpa [wfV] using hw
          obtain ⟨r, hr⟩ := buildLiteral_ok d l ps hw'
          unfold buildValue
          simp only
          rw [hr]
          exact Or.inl ⟨_, rfl⟩
        | none =>
          cases se with
          | some e =>
            intro ps hw
            have hw' : wfE e = true := by simpa [wfV] using hw
            have := okNA_E d hl e ps hw'
            unfold buildValue
            simp only
            exact this
          | none =>
            intro ps hw
            simp [wfV] at hw

end

/-! ## Claim-side measures: nesting depth

`chainE` measures the nesting depth the parse-time validator actually
tracks: each parenthesized sub-expression (`Factor.subExpr`) adds one, and
the count stops at parenthesized sub-values (`Value.subExpr`), where
`validateValue` restarts validation at depth 0.  `scopesE` collects every
remaining validation condition: each sub-value scope's own chain depth must
fit the limit, IN lists must be non-empty and within `maxINItems`, functions
must pass the parse-time allow-list, and malformed nodes fail.  `totalE`
is the claim's cumulative reading: parentheses of sub-expressions and
sub-values both add one, across value boundaries. -/

mutual

def chainE : Expression → Nat
  | .mk ts => chainTs ts

def chainTs : List Term → Nat
  | [] => 0
  | t :: ts => max (chainT t) (chainTs ts)

def chainT : Term → Nat
  | .mk fs => chainFs fs

def chainFs : List Factor → Nat
  | [] => 0
  | f :: fs => max (chainF f) (chainFs fs)

def chainF : Factor → Nat
  | .mk _ se _ =>
    match se with
    | some e => chainE e + 1
    | none => 0

end

mutual

def scopesE (o : ParserOptions) : Expression → Bool
  | .mk ts => scopesTs o ts

def scopesTs (o : ParserOptions) : List Term → Bool
  | [] => true
  | t :: ts => scopesT o t && scopesTs o ts

def scopesT (o : ParserOptions) : Term → Bool
  | .mk fs => scopesFs o fs

def scopesFs (o : ParserOptions) : List Factor → Bool
  | [] => true
  | f :: fs => scopesF o f && scopesFs o fs

def scopesF (o : ParserOptions) : Factor → Bool
  | .mk _ se pr =>
    match se with
    | some e => scopesE o e
    | none =>
      match pr with
      | some p => scopesP o p
      | none => false

def scopesP (o : ParserOptions) : Predicate → Bool
  | .mk left op => scopesVOpt o left && scopesOOpt o op

def scopesOOpt (o : ParserOptions) : Option Operation → Bool
  | none => false
  | some oo => scopesO o oo

def scopesO (o : ParserOptions) : Operation → Bool
  | .mk between inOp likeOp compare isNull =>
    match compare with
    | some (.mk _ right) => scopesVOpt o right
    | none =>
      match likeOp with
      | some (.mk _ _ pat) => scopesVOpt o pat
      | none =>
        match between with
        | some (.mk _ _ lower _ upper) => scopesVOpt o lower && scopesVOpt o upper
        | none =>
          match inOp with
          | some (.mk _ _ values) =>
            decide (1 ≤ values.length) && decide (values.length ≤ o.maxINItems) &&
              scopesVs o values
          | none => isNull.isSome

def scopesVs (o : ParserOptions) : List Value → Bool
  | [] => true
  | v :: vs => scopesV o v && scopesVs o vs

def scopesV (o : ParserOptions) : Value → Bool
  | .mk fc _ _ se => scopesFn o fc && scopesSub o se

def scopesFn (o : ParserOptions) : Option FunctionCall → Bool
  | some (.mk name args) =>
    match o.allowedFuncs with
    | some allowed => allowed.contains (goUpper name) && scopesVs o args
    | none => scopesVs o args
  | none => true

def scopesSub (o : ParserOptions) : Option Expression → Bool
  | some e => decide (chainE e ≤ o.maxDepth) && scopesE o e
  | none => true

def scopesVOpt (o : ParserOptions) : Option Value → Bool
  | none => true
  | some v => scopesV o v

end

mutual

def totalE : Expression → Nat
  | .mk ts => totalTs ts

def totalTs : List Term → Nat
  | [] => 0
  | t :: ts => max (totalT t) (totalTs ts)

def totalT : Term → Nat
  | .mk fs => totalFs fs

def totalFs : List Factor → Nat
  | [] => 0
  | f :: fs => max (totalF f) (totalFs fs)

def totalF : Factor → Nat
  | .mk _ se pr =>
    match se with
    | some e => totalE e + 1
    | none =>
      match pr with
      | some p => totalP p
      | none => 0

def totalP : Predicate → Nat
  | .mk left op =>
    max (totalVOpt left)
      (match op with
       | some o => totalO o
       | none => 0)

def totalO : Operation → Nat
  | .mk between inOp likeOp compare _ =>
    match compare with
    | some (.mk _ right) => totalVOpt right
    | none =>
      match likeOp with
      | some (.mk _ _ pat) => totalVOpt pat
      | none =>
        match between with
        | some (.mk _ _ lower _ upper) => max (totalVOpt lower) (totalVOpt upper)
        | none =>
          match inOp with
          | some (.mk _ _ values) => totalVs values
          | none => 0

def totalVs : List Value → Nat
  | [] => 0
  | v :: vs => max (totalV v) (totalVs vs)

def totalV : Value → Nat
  | .mk fc _ _ se =>
    match fc with
    | some (.mk _ args) => totalVs args
    | none =>
      match se with
      | some e => totalE e + 1
      | none => 0

def totalVOpt : Option Value → Nat
  | none => 0
  | some v => totalV v

end

/-- The depth condition the validator enforces for a whole filter. -/
def specDepthOK (o : ParserOptions) (f : Filter) : Bool :=
  match f.expression with
  | some e => decide (chainE e ≤ o.maxDepth) && scopesE o e
  | none => true

/-- Cumulative parenthesis nesting (sub-expressions and sub-values both
counted, across value boundaries) of a whole filter. -/
def totalFilter (f : Filter) : Nat :=
  match f.expression with
  | some e => totalE e
  | none => 0

/-- Cumulative nesting of the filter an input parses to (0 when it does not
parse). -/
def totalDepthOfInput (input : String) : Nat :=
  match ParseString input with
  | .ok f => totalFilter f
  | .error _ => 0

/-- Success as a boolean, for stating validation outcomes. -/
def vOk : VRes → Bool
  | .ok _ => true
  | .error _ => false

theorem decide_add_max (dep a b M : Nat) :
    decide (dep + max a b ≤ M) = (decide (dep + a ≤ M) && decide (dep + b ≤ M)) := by
  by_cases h1 : dep + a ≤ M <;> by_cases h2 : dep + b ≤ M <;> simp [h1, h2] <;> omega

theorem bool_shuffle (a b c d : Bool) : ((a && b) && (c && d)) = ((a && c) && (b && d)) := by
  cases a <;> cases b <;> cases c <;> cases d <;> rfl

mutual

theorem vOK_E (o : ParserOptions) (e : Expression) :
    ∀ depth, vOk (validateExpression o e depth) =
      (decide (depth + chainE e ≤ o.maxDepth) && scopesE o e) := by
  cases e with
  | mk ts =>
    intro depth
    unfold validateExpression
    by_cases hd : depth > o.maxDepth
    · rw [if_pos hd]
      have hfalse : decide (depth + chainE (Expression.mk ts) ≤ o.maxDepth) = false :=
        decide_eq_false (by omega)
      rw [hfalse]
      simp [vOk]
    · rw [if_neg hd]
      have hd' : depth ≤ o.maxDepth := by omega
      simpa [chainE, scopesE] using vOK_Ts o ts depth hd'

theorem vOK_Ts (o : ParserOptions) (ts : List Term) :
    ∀ depth, depth ≤ o.maxDepth → vOk (validateTermList o ts depth) =
      (decide (depth + chainTs ts ≤ o.maxDepth) && scopesTs o ts) := by
  cases ts with
  | nil =>
    intro depth hd
    unfold validateTermList
    simp [vOk, chainTs, scopesTs, hd]
  | cons t rest =>
    intro depth hd
    unfold validateTermList
    have e1 := vOK_T o t depth hd
    have e2 := vOK_Ts o rest depth hd
    simp only [chainTs, scopesTs, decide_add_max]
    cases h1 : validateTerm o t depth with
    | error msg =>
      rw [h1] at e1
      simp only [vOk] at e1
      simp only [vOk]
      rw [bool_shuffle, ← e1]
      simp
    | ok u =>
      rw [h1] at e1
      simp only [vOk] at e1
      simp only
      rw [e2, bool_shuffle, ← e1]
      simp

theorem vOK_T (o : ParserOptions) (t : Term) :
    ∀ depth, depth ≤ o.maxDepth → vOk (validateTerm o t depth) =
      (decide (depth + chainT t ≤ o.maxDepth) && scopesT o t) := by
  cases t with
  | mk fs =>
    intro depth hd
    unfold validateTerm
    simpa [chainT, scopesT] using vOK_Fs o fs depth hd

theorem vOK_Fs (o : ParserOptions) (fs : List Factor) :
    ∀ depth, depth ≤ o.maxDepth → vOk (validateFactorList o fs depth) =
      (decide (depth + chainFs fs ≤ o.maxDepth) && scopesFs o fs) := by
  cases fs with
  | nil =>
    intro depth hd
    unfold validateFactorList
    simp [vOk, chainFs, scopesFs, hd]
  | cons f rest =>
    intro depth hd
    unfold validateFactorList
    have e1 := vOK_F o f depth hd
    have e2 := vOK_Fs o rest depth hd
    simp only [chainFs, scopesFs, decide_add_max]
    cases h1 : validateFactor o f depth with
    | error msg =>
      rw [h1] at e1
      simp only [vOk] at e1
      simp only [vOk]
      rw [bool_shuffle, ← e1]
      simp
    | ok u =>
      rw [h1] at e1
      simp only [vOk] at e1
      simp only
      rw [e2, bool_shuffle, ← e1]
      simp

theorem vOK_F (o : ParserOptions) (f : Factor) :
    ∀ depth, depth ≤ o.maxDepth → vOk (validateFactor o f depth) =
      (decide (depth + chainF f ≤ o.maxDepth) && scopesF o f) := by
  cases f with
  | mk neg se pr =>
    cases se with
    | some e =>
      intro depth hd
      unfold validateFactor
      have := vOK_E o e (depth + 1)
      simp only [chainF, scopesF]
      rw [this]
      have harith : depth + 1 + chainE e = depth + (chainE e + 1) := by omega
      rw [harith]
    | none =>
      cases pr with
      | some p =>
        intro depth hd
        unfold validateFactor
        have := vOK_P o p
        simp only [chainF, scopesF]
        rw [this]
        have htrue : decide (depth + 0 ≤ o.maxDepth) = true := decide_eq_true (by omega)
        rw [htrue]
        simp
      | none =>
        intro depth hd
        unfold validateFactor
        simp [vOk, chainF, scopesF]

theorem vOK_P (o : ParserOptions) (p : Predicate) :
    vOk (validatePredicate o p) = scopesP o p := by
  cases p with
  | mk left op =>
    unfold validatePredicate
    have e1 := vOK_VOpt o left
    simp only [scopesP]
    cases h1 : validateValueOpt o left with
    | error msg =>
      rw [h1] at e1
      simp only [vOk] at e1
      simp only [vOk]
      rw [← e1]
      simp
    | ok u =>
      rw [h1] at e1
      simp only [vOk] at e1
      simp only
      rw [vOK_POp o op, ← e1]
      simp

theorem vOK_POp (o : ParserOptions) (op : Option Operation) :
    vOk (validatePredicateOp o op) = scopesOOpt o op := by
  cases op with
  | none =>
    unfold validatePredicateOp
    simp [vOk, scopesOOpt]
  | some oo =>
    unfold validatePredicateOp
    simpa [scopesOOpt] using vOK_O o oo

theorem vOK_O (o : ParserOptions) (op : Operation) :
    vOk (validateOperation o op) = scopesO o op := by
  cases op with
  | mk between inOp likeOp compare isNull =>
    cases compare with
    | some c =>
      cases c with
      | mk cop right =>
        unfold validateOperation
        simpa [scopesO] using vOK_VOpt o right
    | none =>
      cases likeOp with
      | some l =>
        cases l with
        | mk negl ty pat =>
          unfold validateOperation
          simpa [scopesO] using vOK_VOpt o pat
      | none =>
        cases between with
        | some b =>
          cases b with
          | mk negb btok lower atok upper =>
            unfold validateOperation
            have e1 := vOK_VOpt o lower
            simp only [scopesO]
            cases h1 : validateValueOpt o lower with
            | error msg =>
              rw [h1] at e1
              simp only [vOk] at e1 ⊢
              rw [← e1]
              simp
            | ok u =>
              rw [h1] at e1
              simp only [vOk] at e1
              rw [← e1, vOK_VOpt o upper]
              simp
        | none =>
          cases inOp with
          | some i =>
            cases i with
            | mk negi itok values =>
              unfold validateOperation
              simp only [scopesO]
              by_cases hz : values.length = 0
              · rw [if_pos hz]
                have : decide (1 ≤ values.length) = false := decide_eq_false (by omega)
                rw [this]
                simp [vOk]
              · rw [if_neg hz]
                by_cases hm : values.length > o.maxINItems
                · rw [if_pos hm]
                  have : decide (values.length ≤ o.maxINItems) = false :=
                    decide_eq_false (by omega)
                  rw [this]
                  simp [vOk]
                · rw [if_neg hm]
                  have h1 : decide (1 ≤ values.length) = true := decide_eq_true (by omega)
                  have h2 : decide (values.length ≤ o.maxINItems) = true :=
                    decide_eq_true (by omega)
                  rw [h1, h2, vOK_Vs o values]
                  simp
          | none =>
            cases isNull with
            | some n =>
              unfold validateOperation
              simp [vOk, scopesO]
            | none =>
              unfold validateOperation
              simp [vOk, scopesO]

theorem vOK_Vs (o : ParserOptions) (vs : List Value) :
    vOk (validateValueList o vs) = scopesVs o vs := by
  cases vs with
  | nil =>
    unfold validateValueList
    simp [vOk, scopesVs]
  | cons x rest =>
    unfold validateValueList
    have e1 := vOK_V o x
    simp only [scopesVs]
    cases h1 : validateValue o x with
    | error msg =>
      rw [h1] at e1
      simp only [vOk] at e1 ⊢
      rw [← e1]
      simp
    | ok u =>
      rw [h1] at e1
      simp only [vOk] at e1
      rw [← e1, vOK_Vs o rest]
      simp

theorem vOK_V (o : ParserOptions) (x : Value) :
    vOk (validateValue o x) = scopesV o x := by
  cases x with
  | mk fc field lit se =>
    unfold validateValue
    have e1 := vOK_Fn o fc
    simp only [scopesV]
    cases h1 : validateValueFn o fc with
    | error msg =>
      rw [h1] at e1
      simp only [vOk] at e1
      simp only [vOk]
      rw [← e1]
      simp
    | ok u =>
      rw [h1] at e1
      simp only [vOk] at e1
      simp only
      rw [vOK_Sub o se, ← e1]
      simp

theorem vOK_Fn (o : ParserOptions) (fc : Option FunctionCall) :
    vOk (validateValueFn o fc) = scopesFn o fc := by
  cases fc with
  | none =>
    unfold validateValueFn
    simp [vOk, scopesFn]
  | some f =>
    cases f with
    | mk name args =>
      unfold validateValueFn
      simp only [scopesFn]
      cases ha : o.allowedFuncs with
      | none => exact vOK_Vs o args
      | some allowed =>
        simp only
        by_cases hc : allowed.contains (goUpper name)
        · rw [if_neg (by rw [hc]; simp), hc]
          simpa using vOK_Vs o args
        · have hcf : allowed.contains (goUpper name) = false := by
            cases hcc : allowed.contains (goUpper name)
            · rfl
            · exact absurd hcc hc
          rw [if_pos (by rw [hcf]; simp), hcf]
          simp [vOk]

theorem vOK_Sub (o : ParserOptions) (se : Option Expression) :
    vOk (validateValueSub o se) = scopesSub o se := by
  cases se with
  | none =>
    unfold validateValueSub
    simp [vOk, scopesSub]
  | some e =>
    unfold validateValueSub
    have := vOK_E o e 0
    rw [this]
    simp [scopesSub, Nat.zero_add]

theorem vOK_VOpt (o : ParserOptions) (val : Option Value) :
    vOk (validateValueOpt o val) = scopesVOpt o val := by
  cases val with
  | none =>
    unfold validateValueOpt
    simp [vOk, scopesVOpt]
  | some x =>
    unfold validateValueOpt
    simpa [scopesVOpt] using vOK_V o x

end

/-- The parse-time validation of a filter succeeds exactly when the
reset-scoped depth condition (with the IN-size and function-allow-list side
conditions) holds. -/
theorem validateFilter_iff (o : ParserOptions) (f : Filter) :
    vOk (validateFilter o f) = specDepthOK o f := by
  rcases f with ⟨fe⟩
  cases fe with
  | none => simp [validateFilter, specDepthOK, vOk]
  | some e =>
    unfold validateFilter specDepthOK
    have := vOK_E o e 0
    simpa [Nat.zero_add] using this

/-! ## Concrete instances used by the claim theorems -/

/-- A bare NULL-literal value. -/
def vNull : Value := .mk none none (some ⟨none, none, none, true⟩) none

/-- A factor rendering as `NULL IS NULL` (no parameters). -/
def wFactor : Factor :=
  .mk false none (some (.mk (some vNull)
    (some (.mk none none none none (some ⟨"IS", false, "NULL"⟩)))))

/-- A term rendering as `NULL IS NULL` (no parameters). -/
def wTerm : Term := .mk [wFactor]

/-- The filter parsed from `age > 18`. -/
def wFilterAge : Filter :=
  match Parse "age > 18" with
  | .ok f => f
  | .error _ => ⟨none⟩

/-- A hypothetical dialect that, like MySQL, maps `ILIKE` onto `LIKE` in
`TranslateOperator`, but is not named `mysql`. -/
def emuDriver : Driver where
  Name := "sqlite"
  QuoteIdentifier := fun s => s
  Placeholder := fun _ => "?"
  Keywords := []
  TranslateOperator := mysqlTranslateOperator
  TranslateFunction := genericTranslateFunction
  SupportsFeature := fun _ => false

/-- A registry holding only the hypothetical dialect. -/
def emuRegistry : Registry := fun n => if n = "sqlite" then some emuDriver else none

/-- The identifier starts with an ASCII digit. -/
def startsWithDigit (s : String) : Bool :=
  match s.data with
  | c :: _ => isDigitChar c
  | [] => false

/-- The identifier contains a character outside `[A-Za-z0-9_]`. -/
def hasSpecialChar (s : String) : Bool :=
  s.data.any (fun c => !((c ≥ 'a' && c ≤ 'z') || (c ≥ 'A' && c ≤ 'Z') ||
    (c ≥ '0' && c ≤ '9') || c = '_'))

/-! ## Claim theorems -/

/-- C2 (counterexample): parsing `a = 1 OR b = 2 AND c = 3` and compiling
for the `$N` dialect yields `(a = $1 OR (b = $2 AND c = $3))` with params
`[1, 2, 3]` — AND does bind tighter than OR, but the multi-term OR
expression is itself parenthesized, contradicting the claimed output
`a = $1 OR (b = $2 AND c = $3)`. -/
theorem c2_counterexample :
    ParseToSQL defaultRegistry none "a = 1 OR b = 2 AND c = 3" "postgres" =
      some ("(a = $1 OR (b = $2 AND c = $3))", [.num 1, .num 2, .num 3], none) ∧
    "(a = $1 OR (b = $2 AND c = $3))" ≠ "a = $1 OR (b = $2 AND c = $3)" := by
  constructor
  · rfl
  · decide

/-- C2 (amended): parsing `a = 1 OR b = 2 AND c = 3` and compiling for the
`$N` dialect yields `(a = $1 OR (b = $2 AND c = $3))` with params
`[1, 2, 3]`: AND binds tighter than OR; parentheses are added around the
multi-term AND group and also around the multi-term OR expression. -/
theorem c2_amended :
    ParseToSQL defaultRegistry none "a = 1 OR b = 2 AND c = 3" "postgres" =
      some ("(a = $1 OR (b = $2 AND c = $3))", [.num 1, .num 2, .num 3], none) := by
  rfl

/-- C4 (counterexample): a driver whose `TranslateOperator` maps `ILIKE`
onto `LIKE` but whose name is not `mysql` gets no case-folding rewrite: the
compiler's condition is the driver name, not the operator mapping, so
`name ILIKE '%john%'` compiles to `name LIKE ?` without `LOWER(...)`. -/
theorem c4_counterexample :
    emuDriver.TranslateOperator "ILIKE" = ("LIKE", true) ∧
    ParseToSQL emuRegistry none "name ILIKE '%john%'" "sqlite" =
      some ("name LIKE ?", [.str "%john%"], none) ∧
    "name LIKE ?" ≠ "LOWER(name) LIKE LOWER(?)" := by
  refine ⟨rfl, rfl, ?_⟩
  decide

/-- C4 (amended): the compiler applies the case-folding rewrite exactly for
the driver named `mysql` (whose `TranslateOperator` does map `ILIKE` onto
`LIKE`): under that driver an `ILIKE` pattern compiles with both operands
wrapped in `LOWER(...)`; concretely, `name ILIKE '%john%'` compiles to
`name ILIKE $1` / `["%john%"]` for postgres and to
`LOWER(name) LIKE LOWER(?)` / `["%john%"]` for mysql. -/
theorem c4_amended :
    mysqlDriver.TranslateOperator "ILIKE" = ("LIKE", true) ∧
    pgDriver.TranslateOperator "ILIKE" = ("ILIKE", true) ∧
    ParseToSQL defaultRegistry none "name ILIKE '%john%'" "postgres" =
      some ("name ILIKE $1", [.str "%john%"], none) ∧
    ParseToSQL defaultRegistry none "name ILIKE '%john%'" "mysql" =
      some ("LOWER(name) LIKE LOWER(?)", [.str "%john%"], none) ∧
    (∀ (d : Driver) (v : Option Validator) (leftVal : String) (ty : LikeType)
       (pat : Option Value) (ps ps1 : List Param) (pv : String),
       d.Name = "mysql" →
       goContains (goUpper ty.operator) "ILIKE" = true →
       (d.TranslateOperator (goUpper ty.operator)).2 = true →
       buildValueOpt d v pat ps = .ok (pv, ps1) →
       buildLike d v leftVal (.mk false ty pat) ps =
         .ok ("LOWER(" ++ leftVal ++ ")" ++ " " ++ (d.TranslateOperator (goUpper ty.operator)).1 ++
           " " ++ ("LOWER(" ++ pv ++ ")"), ps1)) := by
  refine ⟨rfl, rfl, rfl, rfl, ?_⟩
  intro d v leftVal ty pat ps ps1 pv hname hcont hsup hpat
  unfold buildLike
  rw [hpat]
  simp only [Bool.false_eq_true, if_false, reduceIte]
  rw [if_neg (by simp [hsup])]
  rw [if_pos (by simp [hname, hcont]), if_pos (by simp [hname, hcont])]

/-- C5 (counterexample): with `maxDepth = 2` the input `((x = ((a = 1))))`
is accepted although its cumulative nesting of parenthesized
sub-expressions and parenthesized sub-values is 4 > 2: `validateValue`
restarts the depth counter at 0 inside a parenthesized sub-value, so the
two kinds of nesting do not accumulate, contradicting "fails exactly when
the nesting depth of parenthesized sub-expressions and parenthesized
sub-values exceeds maxDepth". -/
theorem c5_counterexample :
    (ParseWith ⟨2, 1000, none⟩ "((x = ((a = 1))))").isOk = true ∧
    totalDepthOfInput "((x = ((a = 1))))" = 4 ∧ 2 < 4 := by
  refine ⟨rfl, rfl, ?_⟩
  decide

/-- C5 (amended): parse-time validation succeeds exactly when the depth
condition `specDepthOK` holds: the validator counts nested parenthesized
sub-expressions only, resets the counter to 0 on entering a parenthesized
sub-value (whose own parentheses are not counted, so nesting does not
accumulate across that boundary, though each sub-value scope must satisfy
the limit on its own), alongside the IN-size and function-allow-list
checks; in particular `maxDepth = 2` rejects `(((age > 18)))` with the
depth-exceeded message and `maxDepth = 3` accepts it. -/
theorem c5_amended :
    (∀ (o : ParserOptions) (f : Filter), vOk (validateFilter o f) = specDepthOK o f) ∧
    ParseWith ⟨2, 1000, none⟩ "(((age > 18)))" =
      .error "filter validation failed: expression depth exceeds maximum of 2" ∧
    (ParseWith ⟨3, 1000, none⟩ "(((age > 18)))").isOk = true := by
  refine ⟨?_, rfl, rfl⟩
  intro o f
  exact validateFilter_iff o f

/-- C6: parse-time validation of an IN operation fails with the
items-exceeded message when the value list is longer than `maxINItems`, and
fails with the at-least-one message on an empty list (re-checked though the
grammar guarantees non-emptiness); `maxINItems = 3` accepts
`id IN (1,2,3)` and rejects `id IN (1,2,3,4)`. -/
theorem c6_in_limits :
    (∀ (o : ParserOptions) (neg : Bool) (itok : String) (values : List Value),
       values.length > o.maxINItems →
       validateOperation o (.mk none (some (.mk neg itok values)) none none none) =
         .error ("IN expression exceeds maximum of " ++ toString o.maxINItems ++ " items")) ∧
    (∀ (o : ParserOptions) (neg : Bool) (itok : String),
       validateOperation o (.mk none (some (.mk neg itok [])) none none none) =
         .error "IN expression requires at least one value") ∧
    (ParseWith ⟨10, 3, none⟩ "id IN (1,2,3)").isOk = true ∧
    (ParseWith ⟨10, 3, none⟩ "id IN (1,2,3,4)").isOk = false := by
  refine ⟨?_, ?_, rfl, rfl⟩
  · intro o neg itok values h
    unfold validateOperation
    simp only
    rw [if_neg (by omega), if_pos h]
  · intro o neg itok
    unfold validateOperation
    rfl

/-- C6 witness: with `maxINItems = 3`, a four-element IN list is rejected
with the items-exceeded message. -/
theorem c6_in_limits_witness :
    ([vNull, vNull, vNull, vNull].length > 3) ∧
    validateOperation ⟨10, 3, none⟩
        (.mk none (some (.mk false "IN" [vNull, vNull, vNull, vNull])) none none none) =
      .error "IN expression exceeds maximum of 3 items" :=
  ⟨by decide, c6_in_limits.1 ⟨10, 3, none⟩ false "IN" [vNull, vNull, vNull, vNull] (by decide)⟩

/-- The `'%john%'` string-literal value. -/
def vPatJohn : Value := .mk none none (some ⟨some "'%john%'", none, none, false⟩) none

/-- C4 witness: the rewrite rule of the amended claim applied to the
registered mysql driver at a concrete pattern. -/
theorem c4_amended_witness :
    (mysqlDriver.Name = "mysql") ∧
    (goContains (goUpper "ILIKE") "ILIKE" = true) ∧
    ((mysqlDriver.TranslateOperator (goUpper "ILIKE")).2 = true) ∧
    (buildValueOpt mysqlDriver none (some vPatJohn) [] = .ok ("?", [.str "%john%"])) ∧
    buildLike mysqlDriver none "name" (.mk false ⟨"ILIKE"⟩ (some vPatJohn)) [] =
      .ok ("LOWER(" ++ "name" ++ ")" ++ " " ++
        (mysqlDriver.TranslateOperator (goUpper "ILIKE")).1 ++
        " " ++ ("LOWER(" ++ "?" ++ ")"), [.str "%john%"]) :=
  ⟨rfl, rfl, rfl, rfl,
    c4_amended.2.2.2.2 mysqlDriver none "name" ⟨"ILIKE"⟩ (some vPatJohn) [] [.str "%john%"]
      "?" rfl rfl rfl rfl⟩

/-- C3: an `Expression` renders its terms joined with ` OR ` and is wrapped
in parentheses exactly when it has more than one term (a single term
renders bare, with no added parentheses); a `Term` does the same over its
factors with ` AND `. -/
theorem c3_paren_rule :
    (∀ (d : Driver) (v : Option Validator) (t : Term) (ps : List Param),
       buildExpression d v (.mk [t]) ps = buildTerm d v t ps) ∧
    (∀ (d : Driver) (v : Option Validator) (t1 t2 : Term) (ts : List Term)
       (ps : List Param) (sql : String) (ps' : List Param),
       buildExpression d v (.mk (t1 :: t2 :: ts)) ps = .ok (sql, ps') →
       ∃ parts, buildTermList d v (t1 :: t2 :: ts) ps = .ok (parts, ps') ∧
         sql = "(" ++ goJoin parts " OR " ++ ")") ∧
    (∀ (d : Driver) (v : Option Validator) (f : Factor) (ps : List Param),
       buildTerm d v (.mk [f]) ps = buildFactor d v f ps) ∧
    (∀ (d : Driver) (v : Option Validator) (f1 f2 : Factor) (fs : List Factor)
       (ps : List Param) (sql : String) (ps' : List Param),
       buildTerm d v (.mk (f1 :: f2 :: fs)) ps = .ok (sql, ps') →
       ∃ parts, buildFactorList d v (f1 :: f2 :: fs) ps = .ok (parts, ps') ∧
         sql = "(" ++ goJoin parts " AND " ++ ")") := by
  refine ⟨?_, ?_, ?_, ?_⟩
  · intro d v t ps
    rfl
  · intro d v t1 t2 ts ps sql ps' h
    unfold buildExpression at h
    cases hh : buildTermList d v (t1 :: t2 :: ts) ps with
    | error err => rw [hh] at h; cases h
    | ok pr =>
      rw [hh] at h
      rcases pr with ⟨parts, ps2⟩
      simp only [Except.ok.injEq, Prod.mk.injEq] at h
      obtain ⟨hsql, hps⟩ := h
      subst hps
      refine ⟨parts, rfl, ?_⟩
      exact hsql.symm
  · intro d v f ps
    rfl
  · intro d v f1 f2 fs ps sql ps' h
    unfold buildTerm at h
    cases hh : buildFactorList d v (f1 :: f2 :: fs) ps with
    | error err => rw [hh] at h; cases h
    | ok pr =>
      rw [hh] at h
      rcases pr with ⟨parts, ps2⟩
      simp only [Except.ok.injEq, Prod.mk.injEq] at h
      obtain ⟨hsql, hps⟩ := h
      subst hps
      refine ⟨parts, rfl, ?_⟩
      exact hsql.symm

/-- C3 witness: a two-term OR expression and a two-factor AND term at a
concrete instance. -/
theorem c3_paren_rule_witness :
    (∃ parts, buildTermList pgDriver none [wTerm, wTerm] [] = .ok (parts, []) ∧
      "(NULL IS NULL OR NULL IS NULL)" = "(" ++ goJoin parts " OR " ++ ")") ∧
    (∃ parts,
      buildFactorList pgDriver none [wFactor, wFactor] [] = .ok (parts, []) ∧
      "(NULL IS NULL AND NULL IS NULL)" = "(" ++ goJoin parts " AND " ++ ")") := by
  constructor
  · exact c3_paren_rule.2.1 pgDriver none wTerm wTerm [] [] _ [] rfl
  · exact c3_paren_rule.2.2.2 pgDriver none wFactor wFactor [] [] _ [] rfl

/-- C1: literal compilation is the sole parameterization point — a `NULL`
literal renders as bare `NULL` and a boolean as bare `TRUE`/`FALSE` without
touching the parameter list, while every number and string literal appends
exactly one value and renders as the driver's placeholder at the new
1-based length of the list (hence indices are strictly increasing across
the compile); a successful compile's final parameter list is the initial
list extended by the literals in traversal order, so the params returned by
`ToSQL` are exactly as many as the String/Number literals in the filter. -/
theorem c1_literal_parameterization :
    (∀ (d : Driver) (s : Option String) (n : Option ℚ) (b : Option BooleanLit)
       (ps : List Param), buildLiteralValue d ⟨s, n, b, true⟩ ps = .ok ("NULL", ps)) ∧
    (∀ (d : Driver) (s : Option String) (n : Option ℚ) (bb : BooleanLit) (ps : List Param),
       buildLiteralValue d ⟨s, n, some bb, false⟩ ps =
         .ok (if bb.t then "TRUE" else "FALSE", ps)) ∧
    (∀ (d : Driver) (s : Option String) (q : ℚ) (ps : List Param),
       buildLiteralValue d ⟨s, some q, none, false⟩ ps =
         .ok (d.Placeholder (ps.length + 1), ps ++ [.num q])) ∧
    (∀ (d : Driver) (s : String) (ps : List Param),
       buildLiteralValue d ⟨some s, none, none, false⟩ ps =
         .ok (d.Placeholder (ps.length + 1), ps ++ [.str (stripLiteralQuotes s)])) ∧
    (∀ (d : Driver) (v : Option Validator) (e : Expression) (ps : List Param)
       (r : String × List Param),
       buildExpression d v e ps = .ok r → r.2 = ps ++ litE e) ∧
    (∀ e : Expression, (litE e).length = countE e) ∧
    (∀ (reg : Registry) (nm : String) (d : Driver) (v : Option Validator) (f : Filter)
       (sql : String) (ps : List Param),
       reg nm = some d → ToSQL reg (some f) nm v = (sql, ps, none) →
       ps.length = countFilter f) := by
  refine ⟨?_, ?_, ?_, ?_, ?_, ?_, ?_⟩
  · intro d s n b ps
    rfl
  · intro d s n bb ps
    cases hb : bb.t <;> simp [buildLiteralValue, hb]
  · intro d s q ps
    rfl
  · intro d s ps
    rfl
  · exact fun d v e ps r h => buildE_params d v e ps r h
  · exact litE_length
  · intro reg nm d v f sql ps hreg h
    unfold ToSQL GetDriver at h
    rw [hreg] at h
    simp only at h
    rcases f with ⟨fe⟩
    cases fe with
    | none => simp at h
    | some e =>
      simp only at h
      cases hb : buildExpression d v e [] with
      | error err => rw [hb] at h; simp at h
      | ok r =>
        rw [hb] at h
        rcases r with ⟨sql0, ps0⟩
        simp only [Prod.mk.injEq] at h
        obtain ⟨hsql, hps, -⟩ := h
        have := buildE_params d v e [] (sql0, ps0) hb
        simp only at this
        subst hps
        rw [this]
        simp [countFilter, litE_length]

/-- C1 witness: the literal-case equations and the params-length law applied
to the parsed filter of `age > 18` under the postgres driver. -/
theorem c1_witness :
    (buildLiteralValue pgDriver ⟨none, none, none, true⟩ [] = .ok ("NULL", [])) ∧
    (buildLiteralValue pgDriver ⟨none, some 18, none, false⟩ [] =
      .ok (pgDriver.Placeholder 1, [.num 18])) ∧
    (defaultRegistry "postgres" = some pgDriver) ∧
    (ToSQL defaultRegistry (some wFilterAge) "postgres" none = ("age > $1", [.num 18], none)) ∧
    ([Param.num 18].length = countFilter wFilterAge) :=
  ⟨c1_literal_parameterization.1 pgDriver none none none [],
   c1_literal_parameterization.2.2.1 pgDriver none 18 [],
   rfl, rfl,
   c1_literal_parameterization.2.2.2.2.2.2 defaultRegistry "postgres" pgDriver none
     wFilterAge "age > $1" [.num 18] rfl rfl⟩

/-- `NeedsQuotingWith` restated as the three-way disjunction of its tests:
reserved keyword, leading digit, special character. -/
theorem needsQuotingWith_eq (keys : List String) (name : String) :
    NeedsQuotingWith keys name =
      (IsReservedKeywordWith keys name || (startsWithDigit name || hasSpecialChar name)) := by
  unfold NeedsQuotingWith
  by_cases h1 : IsReservedKeywordWith keys name = true
  · rw [if_pos h1, h1, Bool.true_or]
  · rw [if_neg h1]
    have h1f : IsReservedKeywordWith keys name = false := by simpa using h1
    rw [h1f, Bool.false_or]
    by_cases h0 : name = ""
    · subst h0
      rw [if_pos rfl]
      rfl
    · rw [if_neg h0]
      unfold startsWithDigit hasSpecialChar
      by_cases h2 : (match name.data with | c :: _ => isDigitChar c | [] => false) = true
      · rw [if_pos h2, h2, Bool.true_or]
      · rw [if_neg h2]
        have h2f : (match name.data with | c :: _ => isDigitChar c | [] => false) = false := by
          simpa using h2
        rw [h2f, Bool.false_or]
        by_cases h3 : name.data.any (fun c => !((c ≥ 'a' && c ≤ 'z') ||
            (c ≥ 'A' && c ≤ 'Z') || (c ≥ '0' && c ≤ '9') || c = '_')) = true
        · rw [if_pos h3, h3]
        · rw [if_neg h3]
          have h3f : name.data.any (fun c => !((c ≥ 'a' && c ≤ 'z') ||
              (c ≥ 'A' && c ≤ 'Z') || (c ≥ '0' && c ≤ '9') || c = '_')) = false := by
            simpa using h3
          rw [h3f]

/-- A reserved keyword is always quoted, whatever its other characters. -/
theorem reserved_forces_quoting (keys : List String) (name : String)
    (h : IsReservedKeywordWith keys name = true) : NeedsQuotingWith keys name = true := by
  unfold NeedsQuotingWith
  rw [if_pos h]

/-- C7: an identifier needs quoting iff it is a reserved keyword of the
driver (matched case-insensitively), starts with a digit, or contains a
character outside `[A-Za-z0-9_]`; any casing of `order` is reserved for
both registered drivers, and compiling `order > 100` quotes the field in
the emitted SQL whatever the source casing. -/
theorem c7_quoting_iff :
    (∀ (d : Driver) (name : String),
       NeedsQuoting name d =
         (IsReservedKeyword name d || (startsWithDigit name || hasSpecialChar name))) ∧
    (∀ name : String, goUpper name = "ORDER" →
       NeedsQuoting name pgDriver = true ∧ NeedsQuoting name mysqlDriver = true) ∧
    ParseToSQL defaultRegistry none "order > 100" "postgres" =
      some (String.mk [dqChar] ++ "order" ++ String.mk [dqChar] ++ " > $1",
        [.num 100], none) ∧
    ParseToSQL defaultRegistry none "ORDER > 100" "postgres" =
      some (String.mk [dqChar] ++ "ORDER" ++ String.mk [dqChar] ++ " > $1",
        [.num 100], none) ∧
    ParseToSQL defaultRegistry none "Order > 100" "mysql" =
      some (String.mk [btChar] ++ "Order" ++ String.mk [btChar] ++ " > ?",
        [.num 100], none) := by
  refine ⟨?_, ?_, rfl, rfl, rfl⟩
  · intro d name
    exact needsQuotingWith_eq d.Keywords name
  · intro name h
    constructor
    · apply reserved_forces_quoting
      unfold IsReservedKeywordWith
      simp only [h]
      rfl
    · apply reserved_forces_quoting
      unfold IsReservedKeywordWith
      simp only [h]
      rfl

/-- C7 witness: the casing-independent reservation rule applied to `Order`. -/
theorem c7_quoting_iff_witness :
    goUpper "Order" = "ORDER" ∧
    NeedsQuoting "Order" pgDriver = true ∧ NeedsQuoting "Order" mysqlDriver = true :=
  ⟨rfl, (c7_quoting_iff.2.1 "Order" rfl).1, (c7_quoting_iff.2.1 "Order" rfl).2⟩

/-- C8: registering under a taken name overwrites (last writer wins) and
leaves other names untouched; registration succeeds exactly when the driver
is non-nil and the name non-empty, and otherwise panics with the nil-driver
or empty-name message, leaving the registry unchanged; looking up a name
that was never registered yields the not-registered error. -/
theorem c8_registry :
    (∀ (reg : Registry) (name : String) (d d2 : Driver) (reg1 reg2 : Registry),
       RegisterDriver reg name (some d) = .ok reg1 →
       RegisterDriver reg1 name (some d2) = .ok reg2 →
       GetDriver reg2 name = .ok d2 ∧ ∀ m, m ≠ name → reg2 m = reg m) ∧
    (∀ (reg : Registry) (name : String) (od : Option Driver),
       (∃ reg2, RegisterDriver reg name od = .ok reg2) ↔ (od ≠ none ∧ name ≠ "")) ∧
    (∀ (reg : Registry) (name : String),
       RegisterDriver reg name none = .error "where: RegisterDriver driver is nil") ∧
    (∀ (reg : Registry) (d : Driver),
       RegisterDriver reg "" (some d) = .error "where: RegisterDriver name is empty") ∧
    (∀ (reg : Registry) (name : String), reg name = none →
       GetDriver reg name = .error ("driver \"" ++ name ++ "\" not registered")) := by
  refine ⟨?_, ?_, ?_, ?_, ?_⟩
  · intro reg name d d2 reg1 reg2 h1 h2
    unfold RegisterDriver at h1 h2
    simp only at h1 h2
    by_cases hn : name = ""
    · rw [if_pos hn] at h1
      cases h1
    · rw [if_neg hn] at h1 h2
      simp only [Except.ok.injEq] at h1 h2
      subst h1
      subst h2
      constructor
      · unfold GetDriver
        simp
      · intro m hm
        simp [hm]
  · intro reg name od
    constructor
    · rintro ⟨reg2, h⟩
      cases od with
      | none => unfold RegisterDriver at h; cases h
      | some d =>
        unfold RegisterDriver at h
        simp only at h
        refine ⟨by simp, ?_⟩
        intro hn
        rw [if_pos hn] at h
        cases h
    · rintro ⟨hod, hn⟩
      cases od with
      | none => exact absurd rfl hod
      | some d =>
        refine ⟨fun n => if n = name then some d else reg n, ?_⟩
        unfold RegisterDriver
        simp only
        rw [if_neg hn]
  · intro reg name
    rfl
  · intro reg d
    unfold RegisterDriver
    simp
  · intro reg name h
    unfold GetDriver
    rw [h]

/-- The registry after registering the postgres driver under `w`. -/
def wreg1 : Registry := fun n => if n = "w" then some pgDriver else emptyRegistry n

/-- The registry after then overwriting `w` with the mysql driver. -/
def wreg2 : Registry := fun n => if n = "w" then some mysqlDriver else wreg1 n

/-- C8 witness: two registrations under the same name at concrete drivers —
the second wins, other names stay unregistered. -/
theorem c8_registry_witness :
    GetDriver wreg2 "w" = .ok mysqlDriver ∧
    wreg2 "other" = emptyRegistry "other" ∧
    GetDriver emptyRegistry "nope" = .error ("driver \"" ++ "nope" ++ "\" not registered") :=
  ⟨(c8_registry.1 emptyRegistry "w" pgDriver mysqlDriver wreg1 wreg2 rfl rfl).1,
   (c8_registry.1 emptyRegistry "w" pgDriver mysqlDriver wreg1 wreg2 rfl rfl).2 "other"
     (by decide),
   c8_registry.2.2.2.2 emptyRegistry "nope" rfl⟩

/-- C9: once the driver name resolves, a nil filter or a filter with a nil
expression compiles to empty SQL, no params and the empty-filter error; the
driver is resolved first, so an unregistered name gives the
driver-not-found error for any filter, nil included. -/
theorem c9_empty_filter :
    (∀ (reg : Registry) (nm : String) (d : Driver) (v : Option Validator),
       reg nm = some d →
       ToSQL reg none nm v = ("", [], some .emptyFilter) ∧
       ToSQL reg (some ⟨none⟩) nm v = ("", [], some .emptyFilter)) ∧
    (∀ (reg : Registry) (nm : String) (v : Option Validator) (f : Option Filter),
       reg nm = none →
       ToSQL reg f nm v = ("", [], some (.driverNotFound nm))) := by
  constructor
  · intro reg nm d v h
    constructor
    · unfold ToSQL GetDriver
      rw [h]
    · unfold ToSQL GetDriver
      rw [h]
  · intro reg nm v f h
    unfold ToSQL GetDriver
    rw [h]

/-- C9 witness: the registered `postgres` name with the two empty-filter
shapes, and the unregistered `oracle` name. -/
theorem c9_empty_filter_witness :
    ToSQL defaultRegistry none "postgres" none = ("", [], some .emptyFilter) ∧
    ToSQL defaultRegistry (some ⟨none⟩) "postgres" none = ("", [], some .emptyFilter) ∧
    ToSQL defaultRegistry (some ⟨none⟩) "oracle" none =
      ("", [], some (.driverNotFound "oracle")) :=
  ⟨(c9_empty_filter.1 defaultRegistry "postgres" pgDriver none rfl).1,
   (c9_empty_filter.1 defaultRegistry "postgres" pgDriver none rfl).2,
   c9_empty_filter.2 defaultRegistry "oracle" none (some ⟨none⟩) rfl⟩

/-- C10: a fresh `NewValidator` denies every field and function name; the
field allow-list check runs on the full dotted name joined from the parts
(and the not-allowed error carries it); under the fresh validator a field
reference or function call always fails with the corresponding not-allowed
error, any successful compile is of a filter with no field or function, and
a well-formed filter containing one fails with a not-allowed error — as the
parsed `age > 18` does concretely. -/
theorem c10_deny_by_default :
    (∀ s, IsFieldAllowed NewValidator s = false) ∧
    (∀ s, IsFunctionAllowed NewValidator s = false) ∧
    (∀ (d : Driver) (vv : Validator) (parts : List String) (ps : List Param),
       parts ≠ [] →
       buildFieldRef d (some vv) ⟨parts⟩ ps =
         (if IsFieldAllowed vv (goJoin parts ".") then
            .ok (goJoin (parts.map (normalizeFieldPart d)) ".", ps)
          else .error (.fieldNotAllowed (goJoin parts ".")))) ∧
    (∀ (d : Driver) (parts : List String) (ps : List Param), parts ≠ [] →
       buildFieldRef d (some NewValidator) ⟨parts⟩ ps =
         .error (.fieldNotAllowed (goJoin parts "."))) ∧
    (∀ (d : Driver) (f : FunctionCall) (ps : List Param),
       buildFunctionCall d (some NewValidator) f ps =
         .error (.functionNotAllowed f.name)) ∧
    (∀ (d : Driver) (e : Expression) (ps : List Param) (r : String × List Param),
       buildExpression d (some NewValidator) e ps = .ok r → hasFFE e = false) ∧
    (∀ (d : Driver) (e : Expression) (ps : List Param),
       likeOpsSupported d = true → wfE e = true → hasFFE e = true →
       ∃ err, buildExpression d (some NewValidator) e ps = .error err ∧
         isNotAllowedErr err = true) ∧
    ParseToSQL defaultRegistry (some NewValidator) "age > 18" "postgres" =
      some ("", [], some (.build (.fieldNotAllowed "age"))) := by
  refine ⟨?_, ?_, ?_, ?_, ?_, ?_, ?_, rfl⟩
  · exact newValidator_denies_fields
  · exact newValidator_denies_functions
  · intro d vv parts ps hne
    cases parts with
    | nil => exact absurd rfl hne
    | cons p rest =>
      unfold buildFieldRef
      cases h : IsFieldAllowed vv (goJoin (p :: rest) ".") <;> simp [h]
  · exact fun d parts ps hne => buildFieldRef_denied d parts hne ps
  · exact buildFunctionCall_denied
  · exact fun d e ps r h => noFF_E d e ps r h
  · intro d e ps hl hw hff
    rcases okNA_E d hl e ps hw with ⟨r, hr⟩ | ⟨err, he, hna⟩
    · rw [noFF_E d e ps r hr] at hff
      cases hff
    · exact ⟨err, he, hna⟩

/-- C10 witness: the deny-all checks and the dotted-name rule at concrete
inputs, including the allowed branch for a validator listing the dotted
name. -/
theorem c10_deny_by_default_witness :
    IsFieldAllowed NewValidator "age" = false ∧
    IsFunctionAllowed NewValidator "LOWER" = false ∧
    (["db", "users", "age"] ≠ ([] : List String) ∧
      buildFieldRef pgDriver (some NewValidator) ⟨["db", "users", "age"]⟩ [] =
        .error (.fieldNotAllowed (goJoin ["db", "users", "age"] "."))) ∧
    buildFieldRef pgDriver (some (Validator.AllowFieldsV NewValidator ["db.users.age"]))
        ⟨["db", "users", "age"]⟩ [] =
      (if IsFieldAllowed (Validator.AllowFieldsV NewValidator ["db.users.age"])
            (goJoin ["db", "users", "age"] ".") then
         .ok (goJoin (["db", "users", "age"].map (normalizeFieldPart pgDriver)) ".", [])
       else .error (.fieldNotAllowed (goJoin ["db", "users", "age"] "."))) :=
  ⟨c10_deny_by_default.1 "age",
   c10_deny_by_default.2.1 "LOWER",
   ⟨by simp, c10_deny_by_default.2.2.2.1 pgDriver ["db", "users", "age"] [] (by simp)⟩,
   c10_deny_by_default.2.2.1 pgDriver (Validator.AllowFieldsV NewValidator ["db.users.age"])
     ["db", "users", "age"] [] (by simp)⟩

end WhereLib
